import Mathlib

/-!
Verification of `payroll_fill.py`: header detection, alias normalization,
two-pass name matching, numeric coercion and field mapping.

The Python code is shallowly embedded: pandas DataFrames become either
lists of rows (for the name-matching pipeline, where only the name columns
participate) or an ordered association list of named columns (for the field
mapper, where column presence/absence matters).  Python strings are Lean
`String`s; all character-level operations are re-implemented over `.data`
(`List Char`) so every definition evaluates inside the kernel.  Casing and
whitespace predicates are the ASCII fragments of Python's Unicode-aware
versions, which agree on all data this program handles.
-/

namespace PayrollFill

/-- ASCII whitespace, the fragment of Python's whitespace class relevant here
(space, tab, newline, carriage return, vertical tab, form feed). -/
def pyWs (c : Char) : Bool :=
  c == ' ' || c == '\t' || c == '\n' || c == '\r' || c == Char.ofNat 11 || c == Char.ofNat 12

/-- Python `str.strip()` on the character list. -/
def trimChars (l : List Char) : List Char :=
  ((l.dropWhile pyWs).reverse.dropWhile pyWs).reverse

/-- Python `str.strip()`. -/
def pyStrip (s : String) : String := ⟨trimChars s.data⟩

/-- Python `str.split()` (no argument): split on whitespace runs, dropping
empty pieces.  `acc` carries the current token reversed. -/
def splitWsGo : List Char → List Char → List (List Char)
  | [], acc => if acc.isEmpty then [] else [acc.reverse]
  | c :: rest, acc =>
    if pyWs c then
      if acc.isEmpty then splitWsGo rest [] else acc.reverse :: splitWsGo rest []
    else splitWsGo rest (c :: acc)

/-- Python `str.split()` returning strings. -/
def pySplitWs (s : String) : List String :=
  (splitWsGo s.data []).map String.mk

/-- Python `str.split(delim)` for a one-character delimiter: keeps empty
pieces, `"".split(d) == [""]`. -/
def splitOnCharGo (d : Char) : List Char → List Char → List (List Char)
  | [], acc => [acc.reverse]
  | c :: rest, acc =>
    if c == d then acc.reverse :: splitOnCharGo d rest []
    else splitOnCharGo d rest (c :: acc)

def pySplitOn (s : String) (d : Char) : List String :=
  (splitOnCharGo d s.data []).map String.mk

/-- Python `line.rstrip("\r\n")`. -/
def rstripCRLF (s : String) : String :=
  ⟨(s.data.reverse.dropWhile (fun c => c == '\r' || c == '\n')).reverse⟩

/-- Python `str.lower()` (ASCII fragment). -/
def lowerStr (s : String) : String := ⟨s.data.map Char.toLower⟩

/-- Python `str.upper()` (ASCII fragment). -/
def upperStr (s : String) : String := ⟨s.data.map Char.toUpper⟩

/-- `norm` from the source: `re.sub(r"[^0-9a-z]+", "", str(s).lower())` —
lowercase, then keep only digits and lowercase letters. -/
def norm (s : String) : String :=
  ⟨((lowerStr s).data.filter (fun c => c.isDigit || c.isLower))⟩

/-! ## Configuration: expected names and aliases (verbatim from the source) -/

def EXPECT_NAMES : List String :=
  ["Employee Last Name", "Employee First Name",
   "401k", "401k Catchup", "Roth 401K", "Roth Catchup", "401K Match 2", "Gross Pay",
   "Regular Hours", "Overtime Hours", "Vacation/PTO Hours",
   "Pay Date"]

def ALIASES : List (String × List String) :=
  [("Roth 401K", ["Roth 401k", "Roth401k", "Roth-401k"]),
   ("401k", ["401(k)", "401 k", "Pre tax 401k", "Pre-tax 401k", "401K"]),
   ("401k Catchup", ["401k Catch-up", "401(k) Catchup", "Pre-Tax Catchup", "Pre Tax Catchup", "Pre-tax Catchup"]),
   ("Roth Catchup", ["Roth 401k Catchup", "Roth Catch-up", "Roth Catch up"]),
   ("401K Match 2", ["401k Match2", "401K Match2", "Safe Harbor Non Elective", "Safe Harbor", "Safe Harbor Match"]),
   ("Gross Pay", ["Gross", "Gross Wages", "Current Period Compensation"]),
   ("Regular Hours", ["Reg Hours", "Base Hours"]),
   ("Overtime Hours", ["OT Hours"]),
   ("Vacation/PTO Hours", ["PTO Hours", "Vacation Hours", "Paid Time Off", "Leave Hours"]),
   ("Employee First Name", ["Emp First Name", "Employee First", "First"]),
   ("Employee Last Name", ["Emp Last Name", "Employee Last", "Last"]),
   ("Pay Date", ["Paydate", "Pay Dt", "Check Date"])]

/-- Association-list lookup mirroring Python `dict.get` / `in`. -/
def alookup (m : List (String × List String)) (k : String) : Option (List String) :=
  (m.find? (fun p => p.1 == k)).map Prod.snd

/-- Dedup keeping first occurrences (used to model `list(set(...))` and
`drop_duplicates`; Python set iteration order is unspecified, but every
claim settled below is independent of the order chosen here). -/
def dedupGo {α : Type} {κ : Type} [BEq κ] (key : α → κ) : List κ → List α → List α
  | _, [] => []
  | seen, a :: rest =>
    if seen.contains (key a) then dedupGo key seen rest
    else a :: dedupGo key (key a :: seen) rest

def dedupBy {α : Type} {κ : Type} [BEq κ] (key : α → κ) (l : List α) : List α :=
  dedupGo key [] l

/-- `build_alias_map` from the source.  For each canonical name the value is
the normalized canonical spelling plus normalized aliases, deduplicated
(the Python `list(set(...))` order is unspecified; insertion order is used
here).  The second Python loop re-adds `norm(k)` for every configured key and
re-deduplicates, which changes nothing when `canonical_names` already covers
the configured keys, as in `main`. -/
def build_alias_map (canonicalNames : List String)
    (aliasesCfg : List (String × List String)) : List (String × List String) :=
  let base := canonicalNames.map (fun canon =>
    (canon, dedupBy id (norm canon :: ((alookup aliasesCfg canon).getD []).map norm)))
  aliasesCfg.foldl (fun amap p =>
    match amap.find? (fun q => q.1 == p.1) with
    | some q => amap.map (fun r => if r.1 == p.1 then (r.1, dedupBy id (q.2 ++ [norm p.1])) else r)
    | none => amap ++ [(p.1, [norm p.1])]) base

/-- The dict `current = {norm(c): c for c in df.columns}`: a later column
overwrites an earlier one with the same normalized form, so lookup returns
the last column whose normalized form is `v`. -/
def currentLookup (cols : List String) (v : String) : Option String :=
  (cols.filter (fun c => norm c == v)).getLast?

/-- The `rename` dict built by `rename_by_alias`: for each canonical name,
the first variant present among the (normalized) columns contributes the
entry `current[v] -> canon`; `break` stops at the first hit. -/
def buildRename (cols : List String) (aliasMap : List (String × List String)) :
    List (String × String) :=
  aliasMap.foldl (fun ren p =>
    match p.2.findSome? (fun v => currentLookup cols v) with
    | some old => ren ++ [(old, p.1)]
    | none => ren) []

/-- Applying the rename dict to one column name (`df.rename(columns=rename)`);
a Python dict keeps the last assignment for a repeated key. -/
def renameLookup (ren : List (String × String)) (c : String) : String :=
  match (ren.filter (fun p => p.1 == c)).getLast? with
  | some p => p.2
  | none => c

/-- `rename_by_alias` acting on the column names of the frame. -/
def rename_by_alias (cols : List String) (aliasMap : List (String × List String)) :
    List String :=
  cols.map (renameLookup (buildRename cols aliasMap))

/-- `df.loc[:, ~df.columns.duplicated()]` from `main`: keep the first
occurrence of every column name. -/
def dropDuplicateCols (cols : List String) : List String :=
  dedupBy id cols

/-! ## Header detection -/

/-- Score of one line in `detect_header_row`: strip the trailing CR/LF, split
on the delimiter, strip each cell, normalize the non-empty cells; `hits` is
the number of normalized cells found among the normalized expected names,
`div` the number of distinct normalized cells. -/
def scoreLine (expNorm : List String) (delim : Char) (line : String) : Nat × Nat :=
  let cells := (pySplitOn (rstripCRLF line) delim).map pyStrip
  let cellsn := (cells.filter (fun c => decide (c ≠ ""))).map norm
  (cellsn.countP (fun c => expNorm.contains c), (dedupBy id cellsn).length)

/-- The scanning loop of `detect_header_row`, with `best_hits`/`best_div`
initialized to `-1` and `best_idx` to `None`; a line wins only when its
`(hits, div)` pair is lexicographically strictly greater. -/
def bestLoop : List (Nat × Nat) → Nat → Int → Int → Option Nat → Option Nat
  | [], _, _, _, bidx => bidx
  | s :: rest, i, bh, bd, bidx =>
    if (s.1 : Int) > bh ∨ ((s.1 : Int) = bh ∧ (s.2 : Int) > bd) then
      bestLoop rest (i + 1) s.1 s.2 (some i)
    else
      bestLoop rest (i + 1) bh bd bidx

/-- The `(hits, div)` pairs of the scanned window of the file. -/
def headerScores (lines : List String) (expectNames : List String)
    (delim : Char) (sniffLines : Nat := 200) : List (Nat × Nat) :=
  (lines.take sniffLines).map (scoreLine (expectNames.map norm) delim)

/-- `detect_header_row`.  The file is a list of lines; the delimiter is the
one produced by `csv.Sniffer` (comma on failure) and is passed in, since the
sniffer is an external library.  `none` models the `RuntimeError`. -/
def detect_header_row (lines : List String) (expectNames : List String)
    (delim : Char) (sniffLines : Nat := 200) : Option Nat :=
  bestLoop (headerScores lines expectNames delim sniffLines) 0 (-1) (-1) none

/-! ## Name parsing and matching -/

def _SUFFIXES : List String := ["JR", "SR", "II", "III", "IV", "V"]

/-- `_clean_token`: collapse whitespace to single spaces, then remove periods
and commas (`re.sub(r"[.,]", "", s)`).  `None` cells do not occur here since
every caller maps it over `astype(str)` output. -/
def _clean_token (s : String) : String :=
  ⟨((List.intercalate [' '] ((pySplitWs s).map String.data)).filter
      (fun c => !(c == '.' || c == ',')))⟩

/-- `_strip_suffix`: empty string maps to itself; otherwise drop a trailing
suffix token (JR/SR/II/III/IV/V, case-insensitively) from the cleaned name. -/
def _strip_suffix (last : String) : String :=
  if last = "" then ""
  else
    let parts := pySplitWs (_clean_token last)
    let parts :=
      match parts.getLast? with
      | some p => if _SUFFIXES.contains (upperStr p) then parts.dropLast else parts
      | none => parts
    ⟨List.intercalate [' '] (parts.map String.data)⟩

/-- `_norm_key_part`: cleaned token, uppercased, with whitespace, apostrophes
and hyphens removed (`re.sub(r"[\s'\-]", "", s)`). -/
def _norm_key_part (s : String) : String :=
  ⟨(upperStr (_clean_token s)).data.filter
      (fun c => !(pyWs c || c == Char.ofNat 39 || c == '-'))⟩

/-- The regex `[A-Za-z]\.?`: one ASCII letter optionally followed by a
period. -/
def isMiToken (t : String) : Bool :=
  match t.data with
  | [c] => c.isAlpha
  | [c, d] => c.isAlpha && d == '.'
  | _ => false

/-- The first character of a string as a one-character string (Python
`s[:1]`), empty for the empty string. -/
def firstCharStr (s : String) : String :=
  match s.data with
  | [] => ""
  | c :: _ => ⟨[c]⟩

/-- `_extract_first_and_mi_from_csv`: clean the combined first-name field;
if the second token is a single letter (optional period) it becomes the
middle initial and the first token the first name, otherwise the whole
cleaned field is the (possibly compound) first name. -/
def _extract_first_and_mi_from_csv (firstField : String) : String × String :=
  let s := _clean_token firstField
  if s = "" then ("", "")
  else
    let tokens := pySplitWs s
    let first := tokens.headD ""
    match tokens.get? 1 with
    | some cand =>
      if isMiToken cand then (first, upperStr (firstCharStr cand))
      else (⟨List.intercalate [' '] (tokens.map String.data)⟩, "")
    | none => (first, "")

/-- A roster (template) row: the three name columns `First Name`, `MI`,
`Last Name`.  The remaining static roster columns ride along unchanged
through matching and are irrelevant to every claim below. -/
structure TRow where
  first : String
  mi : String
  last : String
deriving DecidableEq, Repr

/-- A transaction (CSV) row: `Employee Last Name`, `Employee First Name`. -/
structure CRow where
  lastName : String
  firstName : String
deriving DecidableEq, Repr

/-- `_T_FIRST` of `prepare_template_names`. -/
def tFIRST (r : TRow) : String := _clean_token r.first

/-- `_T_MI`: `x[:1].upper() if x else ""` over the raw MI field. -/
def tMI (r : TRow) : String :=
  if r.mi = "" then "" else upperStr (firstCharStr r.mi)

/-- `_T_LAST`. -/
def tLAST (r : TRow) : String := _strip_suffix r.last

/-- `_T_KEY_LOOSE`. -/
def tKeyLoose (r : TRow) : String :=
  _norm_key_part (tLAST r) ++ "|" ++ _norm_key_part (tFIRST r)

/-- `_T_KEY_STRICT`. -/
def tKeyStrict (r : TRow) : String := tKeyLoose r ++ "|" ++ tMI r

/-- `_C_LAST` of `prepare_csv_names`. -/
def cLAST (c : CRow) : String := _strip_suffix c.lastName

/-- `_C_FIRST`: the cleaned first component of the parsed first-name field. -/
def cFIRST (c : CRow) : String :=
  _clean_token (_extract_first_and_mi_from_csv c.firstName).1

/-- `_C_MI`. -/
def cMI (c : CRow) : String := (_extract_first_and_mi_from_csv c.firstName).2

/-- `_C_KEY_LOOSE`. -/
def cKeyLoose (c : CRow) : String :=
  _norm_key_part (cLAST c) ++ "|" ++ _norm_key_part (cFIRST c)

/-- `_C_KEY_STRICT`. -/
def cKeyStrict (c : CRow) : String := cKeyLoose c ++ "|" ++ cMI c

/-- A roster row annotated with its derived name columns — the frame
produced by `prepare_template_names` (`out = df_t.copy()` plus the five
derived columns). -/
structure TPrep where
  row : TRow
  dFIRST : String
  dMI : String
  dLAST : String
  dKeyLoose : String
  dKeyStrict : String
deriving DecidableEq, Repr

def prepare_template_names (rows : List TRow) : List TPrep :=
  rows.map (fun r => ⟨r, tFIRST r, tMI r, tLAST r, tKeyLoose r, tKeyStrict r⟩)

/-- A transaction row annotated with its derived name columns — the frame
produced by `prepare_csv_names`. -/
structure CPrep where
  row : CRow
  dFIRST : String
  dMI : String
  dLAST : String
  dKeyLoose : String
  dKeyStrict : String
deriving DecidableEq, Repr

def prepare_csv_names (rows : List CRow) : List CPrep :=
  rows.map (fun c => ⟨c, cFIRST c, cMI c, cLAST c, cKeyLoose c, cKeyStrict c⟩)

/-- One output row of `match_template_to_csv`: the roster row, the joined
transaction row (`none` when the left join found no partner, i.e. the
`_C_*` fields are NaN), and the `_MATCH_TYPE` label. -/
structure MRow where
  t : TRow
  c : Option CRow
  matchType : String
deriving DecidableEq, Repr

/-- `match_template_to_csv`.  Pass 1: roster rows with a middle initial are
left-joined on the strict key against the transaction rows with a middle
initial, deduplicated by strict key (first occurrence wins), and labeled
"strict".  A roster row whose strict key occurs among the pass-1 roster rows
is excluded from pass 2.  Pass 2: the remaining roster rows are left-joined
on the loose key against the transaction table deduplicated by loose key and
labeled "loose".  Finally any row whose joined `_C_LAST` is NaN (`c = none`)
is relabeled "unmatched". -/
def match_template_to_csv (ts : List TRow) (cs : List CRow) : List MRow :=
  let t := prepare_template_names ts
  let c := prepare_csv_names cs
  let tStrict := t.filter (fun r => decide (r.dMI ≠ ""))
  let cStrict := dedupBy CPrep.dKeyStrict (c.filter (fun x => decide (x.dMI ≠ "")))
  let t1 := tStrict.map (fun r =>
    ({ t := r.row,
       c := (cStrict.find? (fun x => x.dKeyStrict == r.dKeyStrict)).map CPrep.row,
       matchType := "strict" } : MRow))
  let matchedKeys := tStrict.map TPrep.dKeyStrict
  let tRem := t.filter (fun r => !(matchedKeys.contains r.dKeyStrict))
  let cLoose := dedupBy CPrep.dKeyLoose c
  let fill := tRem.map (fun r =>
    ({ t := r.row,
       c := (cLoose.find? (fun x => x.dKeyLoose == r.dKeyLoose)).map CPrep.row,
       matchType := "loose" } : MRow))
  let both := t1 ++ fill
  both.map (fun m => if m.c.isNone then { m with matchType := "unmatched" } else m)

/-! ## Numeric coercion (`to_num`) -/

/-- A pandas cell: a string, an already-coerced float (held exactly as a
rational — Python float `repr` round-trips, so `float(str(f)) == f`), or a
missing value (`None`/NaN, the values `pd.isna` detects). -/
inductive Cell : Type
  | str (s : String)
  | num (q : ℚ)
  | null
deriving DecidableEq, Repr

/-- Maximal run of digits, with single underscores allowed between digits as
in CPython numeric literals accepted by `float`; returns the value, the
number of digits consumed and the rest.  Stops (leaving the underscore
unconsumed) on a trailing or doubled underscore, which then makes the parse
fail, as in CPython. -/
def digitsAfter (acc n : Nat) : List Char → Nat × Nat × List Char
  | [] => (acc, n, [])
  | [c] =>
    if c.isDigit then (10 * acc + (c.toNat - 48), n + 1, [])
    else (acc, n, [c])
  | c :: d :: r2 =>
    if c.isDigit then digitsAfter (10 * acc + (c.toNat - 48)) (n + 1) (d :: r2)
    else if c == '_' && d.isDigit then
      digitsAfter (10 * acc + (d.toNat - 48)) (n + 1) r2
    else (acc, n, c :: d :: r2)

/-- A digit run must start with a digit. -/
def digitRun : List Char → Option (Nat × Nat × List Char)
  | [] => none
  | c :: rest =>
    if c.isDigit then some (digitsAfter 0 0 (c :: rest)) else none

/-- Mantissa of a Python float literal: `digits [. digits?] | . digits`,
returning the value and the unconsumed rest. -/
def parseMantissa (cs : List Char) : Option (ℚ × List Char) :=
  match digitRun cs with
  | some (i, _, rest) =>
    match rest with
    | '.' :: r2 =>
      match digitRun r2 with
      | some (f, k, r3) => some ((i : ℚ) + (f : ℚ) / (10 : ℚ) ^ k, r3)
      | none => some ((i : ℚ), r2)
    | _ => some ((i : ℚ), rest)
  | none =>
    match cs with
    | '.' :: r2 =>
      match digitRun r2 with
      | some (f, k, r3) => some ((f : ℚ) / (10 : ℚ) ^ k, r3)
      | none => none
    | _ => none

/-- Exponent part after the `e`/`E`: optional sign and digits, which must
consume the whole rest of the string. -/
def parseExp (cs : List Char) : Option ℤ :=
  let (sgn, cs1) : ℤ × List Char :=
    match cs with
    | '+' :: r => (1, r)
    | '-' :: r => (-1, r)
    | _ => (1, cs)
  match digitRun cs1 with
  | some (d, _, []) => some (sgn * d)
  | _ => none

/-- Model of the Python `float` builtin on the symbol-free strings `to_num`
feeds it: optional sign, decimal mantissa, optional exponent.  The `inf` and
`nan` literals are outside the rational model and rejected; callers never
pass surrounding whitespace (it was removed by `re.sub`). -/
def pyFloat (s : String) : Option ℚ :=
  let (sgn, cs1) : ℚ × List Char :=
    match s.data with
    | '+' :: r => (1, r)
    | '-' :: r => (-1, r)
    | _ => (1, s.data)
  match parseMantissa cs1 with
  | none => none
  | some (m, rest) =>
    match rest with
    | [] => some (sgn * m)
    | e :: r2 =>
      if e == 'e' || e == 'E' then
        match parseExp r2 with
        | some ex => some (sgn * m * (10 : ℚ) ^ ex)
        | none => none
      else none

/-- The character class `[,\$\%\s]` removed by `to_num` before parsing. -/
def numJunk (c : Char) : Bool :=
  c == ',' || c == '$' || c == '%' || pyWs c

/-- `to_num`.  `pd.isna` catches `null`; a float cell is stringified and
re-parsed, which returns it unchanged (`repr` round-trip); a string cell is
stripped, the empty string maps to zero, then currency/percent/grouping/space
characters are removed and the result parsed, any failure yielding zero. -/
def to_num (x : Cell) : ℚ :=
  match x with
  | Cell.null => 0
  | Cell.num q => q
  | Cell.str s =>
    let s1 := pyStrip s
    if s1 = "" then 0
    else
      match pyFloat ⟨s1.data.filter (fun c => !numJunk c)⟩ with
      | some q => q
      | none => 0

/-! ## Field mapping -/

/-- A DataFrame for the field mapper: an ordered list of named columns.
`main` drops duplicate column names before this stage, so the frames this
runs on have pairwise distinct names (hypotheses below); pandas semantics
for duplicate labels differ and are not modeled. -/
structure DF : Type where
  cols : List (String × List Cell)
deriving DecidableEq, Repr

def DF.names (df : DF) : List String := df.cols.map Prod.fst

def DF.hasCol (df : DF) (n : String) : Bool := df.names.contains n

/-- The column values for `n` (first occurrence), `[]` when absent; this is
`_ensure_series(out[n])`. -/
def DF.getCol (df : DF) (n : String) : List Cell :=
  match df.cols.find? (fun p => p.1 == n) with
  | some p => p.2
  | none => []

/-- `out[n] = v`: replace the (first) column named `n` in place, or append a
new column at the end. -/
def setColGo (n : String) (v : List Cell) : List (String × List Cell) →
    List (String × List Cell)
  | [] => [(n, v)]
  | p :: rest => if p.1 == n then (n, v) :: rest else p :: setColGo n v rest

def DF.setCol (df : DF) (n : String) (v : List Cell) : DF :=
  ⟨setColGo n v df.cols⟩

/-- The row count used when broadcasting a scalar assignment, read off the
first column (all columns of a real frame have this length). -/
def DF.nRows (df : DF) : Nat :=
  match df.cols with
  | [] => 0
  | p :: _ => p.2.length

/-- Every column has the frame's row count (true of every pandas frame). -/
def DF.Rect (df : DF) : Prop :=
  ∀ p ∈ df.cols, p.2.length = df.nRows

instance (df : DF) : Decidable df.Rect := by
  unfold DF.Rect; infer_instance

/-- The raw CSV columns defaulted by the loop at the top of
`apply_field_mapping`, in source order. -/
def RAW_LIST : List String :=
  ["Regular Hours", "Overtime Hours", "Vacation/PTO Hours", "401k",
   "401k Catchup", "Roth 401K", "Roth Catchup", "401K Match 2", "Gross Pay",
   "Pay Date"]

/-- The defaulting loop: each listed raw column that is absent is created
with the scalar `0.0`, broadcast to every row. -/
def fillMissing (df : DF) : DF :=
  RAW_LIST.foldl (fun o col =>
    if o.hasCol col then o
    else o.setCol col (List.replicate o.nRows (Cell.num 0))) df

/-- Coerce a column with `to_num`, producing float cells. -/
def mapToNum (v : List Cell) : List Cell :=
  v.map (fun c => Cell.num (to_num c))

/-- `apply_field_mapping`, statement by statement.  Note that the output
name "Roth Catchup" coincides with the raw column name, so that raw column
is overwritten with its coerced values; every other assignment targets a
fresh output name.  The `if ... in out.columns` guards around the hours
series are kept although the defaulting loop has made them always true. -/
def apply_field_mapping (df : DF) : DF :=
  let out := fillMissing df
  let out := out.setCol "Pretax" (mapToNum (out.getCol "401k"))
  let out := out.setCol "Pre-Tax Catchup" (mapToNum (out.getCol "401k Catchup"))
  let out := out.setCol "Roth" (mapToNum (out.getCol "Roth 401K"))
  let out := out.setCol "Roth Catchup" (mapToNum (out.getCol "Roth Catchup"))
  let out := out.setCol "Safe Harbor Non-Elective" (mapToNum (out.getCol "401K Match 2"))
  let out := out.setCol "Current Period Compensation" (mapToNum (out.getCol "Gross Pay"))
  let reg := if out.hasCol "Regular Hours"
    then (out.getCol "Regular Hours").map to_num else List.replicate out.nRows 0
  let ot := if out.hasCol "Overtime Hours"
    then (out.getCol "Overtime Hours").map to_num else List.replicate out.nRows 0
  let pto := if out.hasCol "Vacation/PTO Hours"
    then (out.getCol "Vacation/PTO Hours").map to_num else List.replicate out.nRows 0
  let out := out.setCol "Current Period Hours Worked"
    ((List.zipWith (· + ·) (List.zipWith (· + ·) reg ot) pto).map Cell.num)
  let out := out.setCol "Check Date" (out.getCol "Pay Date")
  out

/-! ## Heap model for the frame claim

To state that the transformation functions do not mutate their argument
frames, the pure definitions above are lifted to a store of heap objects
addressed by references.  `df.copy()` allocates a fresh object; every column
assignment in a function body targets the object allocated for its local
`out` (or another locally created frame), never an argument reference, and
this discipline is what the frame theorem certifies.  Intermediate frames
created and consumed inside one body (`t_strict`, `t1`, `t_all`, `fill`,
`both`, ...) are produced by non-mutating pandas operations
(filter/merge/copy/concat) and are modeled as pure values; their local
in-place updates (`t1["__MT__"] = ...`, `t_all.loc[...]`, `inplace=True`
drops) act on those fresh objects only. -/

/-- A heap object: one of the frame shapes the four functions handle. -/
inductive PyObj : Type
  | tdf (rows : List TRow)
  | cdf (rows : List CRow)
  | tpdf (rows : List TPrep)
  | cpdf (rows : List CPrep)
  | mdf (rows : List MRow)
  | fdf (df : DF)
deriving DecidableEq, Repr

/-- The store: objects addressed by allocation index. -/
abbrev Store : Type := List PyObj

def Store.read (s : Store) (r : Nat) : Option PyObj := s.get? r

/-- Allocation appends at the fresh address `s.length`. -/
def Store.alloc (s : Store) (o : PyObj) : Store × Nat := (s ++ [o], s.length)

def Store.write (s : Store) (r : Nat) (o : PyObj) : Store := s.set r o

/-- `prepare_template_names` on the store: read the argument, allocate the
copy (`out = df_t.copy()`), and write the derived columns into that copy.
On a non-roster object the body would raise; the store is returned
untouched. -/
def prepare_template_namesS (s : Store) (dfRef : Nat) : Store × Nat :=
  match s.read dfRef with
  | some (PyObj.tdf rows) =>
    let (s1, outRef) := s.alloc (PyObj.tdf rows)
    (s1.write outRef (PyObj.tpdf (prepare_template_names rows)), outRef)
  | _ => (s, dfRef)

/-- `prepare_csv_names` on the store. -/
def prepare_csv_namesS (s : Store) (dfRef : Nat) : Store × Nat :=
  match s.read dfRef with
  | some (PyObj.cdf rows) =>
    let (s1, outRef) := s.alloc (PyObj.cdf rows)
    (s1.write outRef (PyObj.cpdf (prepare_csv_names rows)), outRef)
  | _ => (s, dfRef)

/-- `match_template_to_csv` on the store: the two prepare calls allocate
their copies; the join result `both` is a fresh concat, allocated and then
relabeled in place. -/
def match_template_to_csvS (s : Store) (tRef cRef : Nat) : Store × Nat :=
  match s.read tRef, s.read cRef with
  | some (PyObj.tdf ts), some (PyObj.cdf cs) =>
    let (s1, _) := prepare_template_namesS s tRef
    let (s2, _) := prepare_csv_namesS s1 cRef
    let (s3, bothRef) := s2.alloc (PyObj.mdf (match_template_to_csv ts cs))
    (s3, bothRef)
  | _, _ => (s, tRef)

/-- `apply_field_mapping` on the store: `out = df.copy()` allocates, then
every column assignment targets that copy. -/
def apply_field_mappingS (s : Store) (dfRef : Nat) : Store × Nat :=
  match s.read dfRef with
  | some (PyObj.fdf df) =>
    let (s1, outRef) := s.alloc (PyObj.fdf df)
    (s1.write outRef (PyObj.fdf (apply_field_mapping df)), outRef)
  | _ => (s, dfRef)

/-! ## Proof-support definitions -/

/-- Strict lexicographic comparison on `(hits, div)` pairs: `lexGt a b` is
the Python tuple comparison `a > b`. -/
def lexGt (a b : Nat × Nat) : Prop :=
  b.1 < a.1 ∨ (a.1 = b.1 ∧ b.2 < a.2)

instance (a b : Nat × Nat) : Decidable (lexGt a b) := by
  unfold lexGt; infer_instance

/-- The scanning loop of `detect_header_row` once an incumbent best exists:
carries the incumbent score `cur` and its index `b`.  Equivalent to
`bestLoop` with a `some` accumulator (see `bestLoop_eq_runBest`). -/
def runBest : List (Nat × Nat) → Nat → Nat × Nat → Nat → Nat × (Nat × Nat)
  | [], _, cur, b => (b, cur)
  | s :: rest, i, cur, b =>
    if lexGt s cur then runBest rest (i + 1) s i else runBest rest (i + 1) cur b

/- Core marks rational arithmetic `@[irreducible]`, which blocks the
elaborator's evaluation in `decide`/`rfl` proofs about concrete tables even
though the kernel reduces these definitions fine; restore the default
reducibility for them within this development. -/
attribute [local semireducible] Rat.add Rat.mul Rat.sub Rat.inv Rat.ofScientific

/-! ## Helper lemmas: the scanning loop -/

theorem lexGt_irrefl (a : Nat × Nat) : ¬ lexGt a a := by
  unfold lexGt; omega

theorem lexGt_trans {a b c : Nat × Nat} (h1 : lexGt a b) (h2 : lexGt b c) :
    lexGt a c := by
  unfold lexGt at *; omega

theorem lexGt_asymm {a b : Nat × Nat} (h : lexGt a b) : ¬ lexGt b a := by
  unfold lexGt at *; omega

theorem lexGt_of_gt_of_not_gt {x y z : Nat × Nat} (h1 : lexGt x y)
    (h2 : ¬ lexGt z y) : lexGt x z := by
  unfold lexGt at *; omega

theorem lexGt_iff_int (s cur : Nat × Nat) :
    lexGt s cur ↔
      ((s.1 : Int) > (cur.1 : Int) ∨
        ((s.1 : Int) = (cur.1 : Int) ∧ (s.2 : Int) > (cur.2 : Int))) := by
  unfold lexGt; omega

theorem bestLoop_eq_runBest (scores : List (Nat × Nat)) :
    ∀ (i b : Nat) (cur : Nat × Nat),
      bestLoop scores i (cur.1 : Int) (cur.2 : Int) (some b) =
        some (runBest scores i cur b).1 := by
  induction scores with
  | nil => intro i b cur; rfl
  | cons s rest ih =>
    intro i b cur
    by_cases h : lexGt s cur
    · rw [bestLoop, if_pos ((lexGt_iff_int s cur).mp h), runBest, if_pos h]
      exact ih (i + 1) i s
    · rw [bestLoop, if_neg (fun hc => h ((lexGt_iff_int s cur).mpr hc)),
        runBest, if_neg h]
      exact ih (i + 1) b cur

theorem bestLoop_isSome (scores : List (Nat × Nat)) :
    ∀ (i : Nat) (bh bd : Int) (b : Nat),
      (bestLoop scores i bh bd (some b)).isSome := by
  induction scores with
  | nil => intro i bh bd b; rfl
  | cons s rest ih =>
    intro i bh bd b
    rw [bestLoop]
    split
    · exact ih (i + 1) s.1 s.2 i
    · exact ih (i + 1) bh bd b

theorem getD_mem_of_lt {α : Type} (l : List α) (d : α) (n : Nat)
    (h : n < l.length) : l.getD n d ∈ l := by
  rw [List.getD_eq_getElem l d h]; exact List.getElem_mem h

theorem runBest_spec (scores : List (Nat × Nat)) :
    ∀ (i : Nat) (cur : Nat × Nat) (b : Nat),
      (runBest scores i cur b = (b, cur) ∧ ∀ s ∈ scores, ¬ lexGt s cur) ∨
      (∃ j, j < scores.length ∧
        (runBest scores i cur b).1 = i + j ∧
        (runBest scores i cur b).2 = scores.getD j (0, 0) ∧
        lexGt (runBest scores i cur b).2 cur ∧
        (∀ k, k < scores.length →
          ¬ lexGt (scores.getD k (0, 0)) (runBest scores i cur b).2) ∧
        (∀ k, k < j →
          lexGt (runBest scores i cur b).2 (scores.getD k (0, 0)))) := by
  induction scores with
  | nil =>
    intro i cur b
    exact Or.inl ⟨rfl, by intro s hs; cases hs⟩
  | cons s rest ih =>
    intro i cur b
    by_cases h : lexGt s cur
    · have hrun : runBest (s :: rest) i cur b = runBest rest (i + 1) s i := by
        rw [runBest, if_pos h]
      rcases ih (i + 1) s i with ⟨heq, hall⟩ | ⟨j, hj, h1, h2, h3, h4, h5⟩
      · refine Or.inr ⟨0, by simp, ?_, ?_, ?_, ?_, ?_⟩
        · rw [hrun, heq]; rfl
        · rw [hrun, heq]; rfl
        · rw [hrun, heq]; exact h
        · intro k hk
          rw [hrun, heq]
          match k, hk with
          | 0, _ => exact lexGt_irrefl s
          | k + 1, hk =>
            simp only [List.getD_cons_succ]
            exact hall _ (getD_mem_of_lt rest (0, 0) k (by simpa using hk))
        · intro k hk; omega
      · refine Or.inr ⟨j + 1, by simpa using hj, ?_, ?_, ?_, ?_, ?_⟩
        · rw [hrun, h1]; omega
        · rw [hrun, h2]; simp
        · rw [hrun]; exact lexGt_trans h3 h
        · intro k hk
          rw [hrun]
          match k, hk with
          | 0, _ => exact lexGt_asymm (lexGt_of_gt_of_not_gt h3 (lexGt_irrefl s))
          | k + 1, hk =>
            simp only [List.getD_cons_succ]
            exact h4 k (by simpa using hk)
        · intro k hk
          rw [hrun]
          match k, hk with
          | 0, _ => exact h3
          | k + 1, hk =>
            simp only [List.getD_cons_succ]
            exact h5 k (by omega)
    · have hrun : runBest (s :: rest) i cur b = runBest rest (i + 1) cur b := by
        rw [runBest, if_neg h]
      rcases ih (i + 1) cur b with ⟨heq, hall⟩ | ⟨j, hj, h1, h2, h3, h4, h5⟩
      · refine Or.inl ⟨by rw [hrun, heq], ?_⟩
        intro x hx
        rcases List.mem_cons.mp hx with rfl | hx
        · exact h
        · exact hall _ hx
      · refine Or.inr ⟨j + 1, by simpa using hj, ?_, ?_, ?_, ?_, ?_⟩
        · rw [hrun, h1]; omega
        · rw [hrun, h2]; simp
        · rw [hrun]; exact h3
        · intro k hk
          rw [hrun]
          match k, hk with
          | 0, _ => exact fun hc => h (lexGt_of_gt_of_not_gt hc (lexGt_asymm h3))
          | k + 1, hk =>
            simp only [List.getD_cons_succ]
            exact h4 k (by simpa using hk)
        · intro k hk
          rw [hrun]
          match k, hk with
          | 0, _ => exact lexGt_of_gt_of_not_gt h3 h
          | k + 1, hk =>
            simp only [List.getD_cons_succ]
            exact h5 k (by omega)

/-! ## Claims C4 and C5: header detection -/

/-- Claim C4: for every file whose scanned window (the first 200 lines)
contains at least one candidate line, `detect_header_row` returns the
zero-based index of the line maximizing the lexicographic pair
(expected-name hit count, distinct-normalized-cell count) as computed by
`scoreLine` — splitting on the sniffed delimiter — and among equal maxima it
returns the first. -/
theorem c4_header_first_argmax (lines expectNames : List String) (delim : Char)
    (h : lines ≠ []) :
    ∃ k, k < (headerScores lines expectNames delim).length ∧
      detect_header_row lines expectNames delim = some k ∧
      (∀ j, j < (headerScores lines expectNames delim).length →
        ¬ lexGt ((headerScores lines expectNames delim).getD j (0, 0))
            ((headerScores lines expectNames delim).getD k (0, 0))) ∧
      (∀ j, j < k →
        lexGt ((headerScores lines expectNames delim).getD k (0, 0))
            ((headerScores lines expectNames delim).getD j (0, 0))) := by
  match lines, h with
  | l0 :: rest, _ =>
    have hS : headerScores (l0 :: rest) expectNames delim =
        scoreLine (expectNames.map norm) delim l0 ::
          (rest.take 199).map (scoreLine (expectNames.map norm) delim) := by
      simp [headerScores]
    set s0 := scoreLine (expectNames.map norm) delim l0 with hs0
    set srest := (rest.take 199).map (scoreLine (expectNames.map norm) delim) with hsr
    have hD : detect_header_row (l0 :: rest) expectNames delim =
        some (runBest srest 1 s0 0).1 := by
      rw [detect_header_row, hS, bestLoop,
        if_pos (Or.inl (by omega : (s0.1 : Int) > -1))]
      exact bestLoop_eq_runBest srest 1 0 s0
    rcases runBest_spec srest 1 s0 0 with ⟨heq, hall⟩ | ⟨j, hj, h1, h2, h3, h4, h5⟩
    · refine ⟨0, by rw [hS]; simp, ?_, ?_, ?_⟩
      · rw [hD, heq]
      · intro j hj
        rw [hS] at hj ⊢
        match j, hj with
        | 0, _ => exact lexGt_irrefl _
        | j + 1, hj =>
          simp only [List.getD_cons_succ, List.getD_cons_zero]
          exact hall _ (getD_mem_of_lt srest (0, 0) j (by simpa using hj))
      · intro j hj; omega
    · refine ⟨j + 1, by rw [hS]; simpa using hj, ?_, ?_, ?_⟩
      · rw [hD, h1, Nat.add_comm]
      · intro k hk
        rw [hS] at hk ⊢
        match k, hk with
        | 0, _ =>
          simp only [List.getD_cons_succ, List.getD_cons_zero, ← h2]
          exact lexGt_asymm (lexGt_of_gt_of_not_gt h3 (lexGt_irrefl s0))
        | k + 1, hk =>
          simp only [List.getD_cons_succ, ← h2]
          exact h4 k (by simpa using hk)
      · intro k hk
        rw [hS]
        match k, hk with
        | 0, _ =>
          simp only [List.getD_cons_succ, List.getD_cons_zero, ← h2]
          exact h3
        | k + 1, hk =>
          simp only [List.getD_cons_succ, ← h2]
          exact h5 k (by omega)

/-- Claim C4 witness. -/
theorem c4_header_first_argmax_witness :
    ∃ k, k < (headerScores ["junk", "Gross Pay,Pay Date"] EXPECT_NAMES ',').length ∧
      detect_header_row ["junk", "Gross Pay,Pay Date"] EXPECT_NAMES ',' = some k ∧
      (∀ j, j < (headerScores ["junk", "Gross Pay,Pay Date"] EXPECT_NAMES ',').length →
        ¬ lexGt ((headerScores ["junk", "Gross Pay,Pay Date"] EXPECT_NAMES ',').getD j (0, 0))
            ((headerScores ["junk", "Gross Pay,Pay Date"] EXPECT_NAMES ',').getD k (0, 0))) ∧
      (∀ j, j < k →
        lexGt ((headerScores ["junk", "Gross Pay,Pay Date"] EXPECT_NAMES ',').getD k (0, 0))
            ((headerScores ["junk", "Gross Pay,Pay Date"] EXPECT_NAMES ',').getD j (0, 0))) :=
  c4_header_first_argmax ["junk", "Gross Pay,Pay Date"] EXPECT_NAMES ','
    (by decide)

/-- Claim C5 counterexample: a file consisting of a single whitespace-only
line.  The claim says such a file must raise "no header found"; the code
instead scores the blank line `(0, 0)`, which beats the initial `(-1, -1)`,
and returns index 0. -/
theorem c5_counterexample :
    pyStrip "   " = "" ∧
    detect_header_row ["   "] EXPECT_NAMES ',' = some 0 := by
  constructor
  · rfl
  · rfl

/-- Claim C5 (amended): `detect_header_row` raises "no header found" exactly
when the file contains no lines at all; any file with at least one line —
even an entirely blank or whitespace one — returns an index instead of
raising, because every scanned line scores at least `(0, 0) > (-1, -1)`. -/
theorem c5_none_iff_no_lines (lines expectNames : List String) (delim : Char) :
    detect_header_row lines expectNames delim = none ↔ lines = [] := by
  cases lines with
  | nil => simp [detect_header_row, headerScores, bestLoop]
  | cons l0 rest =>
    simp only [detect_header_row, headerScores]
    rw [List.take_succ_cons, List.map_cons, bestLoop,
      if_pos (Or.inl (by omega :
        ((scoreLine (expectNames.map norm) delim l0).1 : Int) > -1))]
    have := bestLoop_isSome
      ((rest.take 199).map (scoreLine (expectNames.map norm) delim)) 1
      (scoreLine (expectNames.map norm) delim l0).1
      (scoreLine (expectNames.map norm) delim l0).2 0
    constructor
    · intro hc
      rw [hc] at this
      cases this
    · intro hc
      cases hc

/-- Claim C5 witness: instances of the amended equivalence at a one-line
whitespace file and at the empty file. -/
theorem c5_none_iff_no_lines_witness :
    (detect_header_row ["   "] EXPECT_NAMES ',' = none ↔
      (["   "] : List String) = []) ∧
    (detect_header_row [] EXPECT_NAMES ',' = none ↔
      ([] : List String) = []) :=
  ⟨c5_none_iff_no_lines ["   "] EXPECT_NAMES ',',
   c5_none_iff_no_lines [] EXPECT_NAMES ','⟩

/-! ## Claim C3: name matching examples -/

/-- Claim C3: the five example outcomes of name parsing and matching.
Roster (Jane, A, Doe) against transaction (Doe, "Jane A") is "strict";
(John, "", Smith) against (Smith, "John") is "loose"; (Mary Ann, "", Brown)
against (Brown, "Mary Ann") is "loose" — the compound first name is not
split into a false middle initial; (Alex, "", Doe) against ("Doe Jr",
"Alex") is "loose", hence not "unmatched", because the suffix token of
"Doe Jr" is stripped before keying; (Zoe, "", Nope) against an unrelated
transaction row is "unmatched". -/
theorem c3_matching_examples :
    (match_template_to_csv [⟨"Jane", "A", "Doe"⟩]
        [⟨"Doe", "Jane A"⟩]).map MRow.matchType = ["strict"] ∧
    (match_template_to_csv [⟨"John", "", "Smith"⟩]
        [⟨"Smith", "John"⟩]).map MRow.matchType = ["loose"] ∧
    (match_template_to_csv [⟨"Mary Ann", "", "Brown"⟩]
        [⟨"Brown", "Mary Ann"⟩]).map MRow.matchType = ["loose"] ∧
    (match_template_to_csv [⟨"Alex", "", "Doe"⟩]
        [⟨"Doe Jr", "Alex"⟩]).map MRow.matchType = ["loose"] ∧
    cKeyLoose ⟨"Doe Jr", "Alex"⟩ = cKeyLoose ⟨"Doe", "Alex"⟩ ∧
    (match_template_to_csv [⟨"Zoe", "", "Nope"⟩]
        [⟨"Someone", "Else"⟩]).map MRow.matchType = ["unmatched"] := by
  refine ⟨?_, ?_, ?_, ?_, ?_, ?_⟩ <;> rfl

/-! ## Helper lemmas: strict keys and middle initials -/

theorem data_append (s t : String) : (s ++ t).data = s.data ++ t.data := by
  cases s; cases t; rfl

theorem tMI_data_len (r : TRow) : (tMI r).data.length ≤ 1 := by
  unfold tMI
  by_cases hmi : r.mi = ""
  · simp [hmi]
  · rw [if_neg hmi]
    unfold firstCharStr upperStr
    cases r.mi.data with
    | nil => simp
    | cons c tail => simp

/-- A strict-key collision between a roster row without a middle initial and
one with a middle initial forces that initial to be the separator character
`"|"` — the mechanism behind the C2 counterexample. -/
theorem strict_key_collision (r s : TRow) (hr : tMI r = "") (hs : tMI s ≠ "")
    (hk : tKeyStrict s = tKeyStrict r) : tMI s = "|" := by
  have hd : (tKeyLoose s).data ++ '|' :: (tMI s).data =
      (tKeyLoose r).data ++ ['|'] := by
    have := congrArg String.data hk
    simp only [tKeyStrict, data_append, hr] at this
    simpa [List.append_assoc] using this
  have hlast : ('|' :: (tMI s).data).getLast? = some '|' := by
    have h1 : ((tKeyLoose s).data ++ '|' :: (tMI s).data).getLast? =
        ('|' :: (tMI s).data).getLast? :=
      List.getLast?_append_of_ne_nil _ (by simp)
    have h2 : ((tKeyLoose r).data ++ ['|']).getLast? = some '|' := by
      rw [List.getLast?_append_of_ne_nil _ (by simp)]; rfl
    rw [← h1, hd, h2]
  have hne : (tMI s).data ≠ [] := by
    intro hc
    apply hs
    calc tMI s = ⟨(tMI s).data⟩ := rfl
      _ = ⟨[]⟩ := by rw [hc]
      _ = "" := rfl
  have hlen := tMI_data_len s
  cases hm : (tMI s).data with
  | nil => exact absurd hm hne
  | cons c tail =>
    cases tail with
    | nil =>
      rw [hm] at hlast
      simp only [List.getLast?_cons_cons, List.getLast?_singleton,
        Option.some.injEq] at hlast
      calc tMI s = ⟨(tMI s).data⟩ := rfl
        _ = ⟨[c]⟩ := by rw [hm]
        _ = "|" := by rw [hlast]
    | cons c2 t2 => rw [hm] at hlen; simp at hlen

/-- The roster component of the match output: pass-1 rows (those with a
middle initial) followed by the pass-2 remainder. -/
theorem match_map_t (ts : List TRow) (cs : List CRow) :
    (match_template_to_csv ts cs).map MRow.t =
      (((prepare_template_names ts).filter
          (fun r => decide (r.dMI ≠ ""))).map TPrep.row) ++
      (((prepare_template_names ts).filter (fun r =>
          !(((((prepare_template_names ts).filter
              (fun x => decide (x.dMI ≠ ""))).map TPrep.dKeyStrict)).contains
            r.dKeyStrict))).map TPrep.row) := by
  simp only [match_template_to_csv, List.map_append, List.map_map]
  congr 1 <;>
    · apply List.map_congr_left
      intro x hx
      simp [apply_ite MRow.t]

/-! ## Claim C2: one output row per roster row -/

/-- Claim C2 counterexample: with a `|` character in the name fields a
roster row can be dropped.  Roster row 1 is (X, |, D); roster row 2 is
("", "", "D|X") with an empty middle initial.  Both have strict key
`"D|X||"`, so row 2 is marked as handled by pass 1 without ever being in it,
and the output has one row for two roster rows. -/
theorem c2_counterexample :
    (match_template_to_csv
        [⟨"X", "|", "D"⟩, ⟨"", "", "D|X"⟩] []).length = 1 ∧
    ([⟨"X", "|", "D"⟩, ⟨"", "", "D|X"⟩] : List TRow).length = 2 ∧
    tKeyStrict ⟨"X", "|", "D"⟩ = tKeyStrict ⟨"", "", "D|X"⟩ := by
  refine ⟨rfl, rfl, rfl⟩

/-- Claim C2 (amended): provided no roster row's middle-initial field begins
with the reserved separator character `|` (so its derived `_T_MI` is not
`"|"`), the output of `match_template_to_csv` contains exactly one row per
input roster row — the output roster components are a permutation of the
input — and each output row carries exactly one label from
{strict, loose, unmatched} (the single `_MATCH_TYPE` field). -/
theorem c2_one_row_per_roster (ts : List TRow) (cs : List CRow)
    (h : ∀ r ∈ ts, tMI r ≠ "|") :
    ((match_template_to_csv ts cs).map MRow.t).Perm ts ∧
    ∀ m ∈ match_template_to_csv ts cs,
      m.matchType = "strict" ∨ m.matchType = "loose" ∨ m.matchType = "unmatched" := by
  constructor
  · rw [match_map_t]
    have hcond : ∀ x ∈ prepare_template_names ts,
        (!(((((prepare_template_names ts).filter
            (fun y => decide (y.dMI ≠ ""))).map TPrep.dKeyStrict)).contains
          x.dKeyStrict)) = !(decide (x.dMI ≠ "")) := by
      intro x hx
      obtain ⟨r, hr, rfl⟩ := List.mem_map.mp hx
      show (!((((prepare_template_names ts).filter
          (fun y => decide (y.dMI ≠ ""))).map TPrep.dKeyStrict)).contains
        (tKeyStrict r)) = !(decide (tMI r ≠ ""))
      have hmem_iff : tKeyStrict r ∈
          (((prepare_template_names ts).filter
            (fun y => decide (y.dMI ≠ ""))).map TPrep.dKeyStrict) ↔
          tMI r ≠ "" := by
        constructor
        · intro hmem
          obtain ⟨y, hy, hky⟩ := List.mem_map.mp hmem
          rw [List.mem_filter] at hy
          obtain ⟨hymem, hymi⟩ := hy
          obtain ⟨s, hs, rfl⟩ := List.mem_map.mp hymem
          intro hc
          exact h s hs (strict_key_collision r s hc
            (by simpa using hymi) hky)
        · intro hmi
          exact List.mem_map.mpr
            ⟨⟨r, tFIRST r, tMI r, tLAST r, tKeyLoose r, tKeyStrict r⟩,
              List.mem_filter.mpr
                ⟨List.mem_map_of_mem _ hr, by simpa using hmi⟩, rfl⟩
      congr 1
      by_cases hmi : tMI r ≠ ""
      · rw [decide_eq_true hmi]
        simpa using hmem_iff.mpr hmi
      · have h2 : decide (tMI r ≠ "") = false := by
          simpa using hmi
        rw [h2]
        simpa using fun hc => hmi (hmem_iff.mp hc)
    rw [List.filter_congr hcond]
    have h1 : ∀ (p : TPrep → Bool),
        ((prepare_template_names ts).filter p).map TPrep.row =
          ts.filter (p ∘ (fun r : TRow =>
            (⟨r, tFIRST r, tMI r, tLAST r, tKeyLoose r, tKeyStrict r⟩ : TPrep))) := by
      intro p
      unfold prepare_template_names
      rw [List.filter_map, List.map_map]
      exact List.map_id' _
    rw [h1, h1]
    exact List.filter_append_perm _ ts
  · intro m hm
    simp only [match_template_to_csv] at hm
    obtain ⟨m', hm', rfl⟩ := List.mem_map.mp hm
    have hlab : m'.matchType = "strict" ∨ m'.matchType = "loose" := by
      rcases List.mem_append.mp hm' with hh | hh <;>
        obtain ⟨x, hx, rfl⟩ := List.mem_map.mp hh
      · exact Or.inl rfl
      · exact Or.inr rfl
    by_cases hc : m'.c.isNone
    · simp [hc]
    · rcases hlab with hl | hl <;> simp [hc, hl]

/-- Claim C2 witness. -/
theorem c2_one_row_per_roster_witness :
    ((match_template_to_csv [⟨"Jane", "A", "Doe"⟩, ⟨"John", "", "Smith"⟩]
        [⟨"Smith", "John"⟩]).map MRow.t).Perm
      [⟨"Jane", "A", "Doe"⟩, ⟨"John", "", "Smith"⟩] ∧
    ∀ m ∈ match_template_to_csv [⟨"Jane", "A", "Doe"⟩, ⟨"John", "", "Smith"⟩]
        [⟨"Smith", "John"⟩],
      m.matchType = "strict" ∨ m.matchType = "loose" ∨ m.matchType = "unmatched" :=
  c2_one_row_per_roster [⟨"Jane", "A", "Doe"⟩, ⟨"John", "", "Smith"⟩]
    [⟨"Smith", "John"⟩] (by decide)

/-! ## Claim C1: strict-pass exclusivity -/

theorem mem_of_mem_dedupGo {α κ : Type} [BEq κ] (key : α → κ) :
    ∀ (l : List α) (seen : List κ) (x : α), x ∈ dedupGo key seen l → x ∈ l := by
  intro l
  induction l with
  | nil => intro seen x hx; cases hx
  | cons a rest ih =>
    intro seen x hx
    rw [dedupGo] at hx
    split at hx
    · exact List.mem_cons_of_mem a (ih _ x hx)
    · rcases List.mem_cons.mp hx with rfl | hx
      · exact List.mem_cons_self x rest
      · exact List.mem_cons_of_mem a (ih _ x hx)

theorem mem_of_mem_dedupBy {α κ : Type} [BEq κ] (key : α → κ) (l : List α)
    (x : α) (hx : x ∈ dedupBy key l) : x ∈ l :=
  mem_of_mem_dedupGo key l [] x hx

/-- The relabeling step at the end of `match_template_to_csv` keeps the
roster component. -/
theorem relabel_t (m : MRow) :
    (if m.c.isNone then { m with matchType := "unmatched" } else m).t = m.t := by
  by_cases h : m.c.isNone <;> simp [h]

/-- The relabeling step keeps the joined transaction component. -/
theorem relabel_c (m : MRow) :
    (if m.c.isNone then { m with matchType := "unmatched" } else m).c = m.c := by
  by_cases h : m.c.isNone <;> simp [h]

/-- Claim C1: a roster row with a non-empty middle initial enters the strict
pass; its strict key then counts as handled, so it is excluded from the
loose pass even when the strict pass found no transaction counterpart.  Such
a row appears in the output (joined to nothing) labeled "unmatched", and is
never joined to any transaction row — even one whose loose key matches. -/
theorem c1_strict_pass_exclusivity (ts : List TRow) (cs : List CRow) (r : TRow)
    (hr : r ∈ ts) (hmi : tMI r ≠ "")
    (hnos : ∀ c ∈ cs, cMI c ≠ "" → cKeyStrict c ≠ tKeyStrict r) :
    (∃ m ∈ match_template_to_csv ts cs, m.t = r) ∧
    (∀ m ∈ match_template_to_csv ts cs, m.t = r →
      m.c = none ∧ m.matchType = "unmatched") := by
  have hfind : ∀ s : TRow, tKeyStrict s = tKeyStrict r →
      ((dedupBy CPrep.dKeyStrict ((prepare_csv_names cs).filter
          (fun y => decide (y.dMI ≠ "")))).find?
        (fun y => y.dKeyStrict ==
          (⟨s, tFIRST s, tMI s, tLAST s, tKeyLoose s, tKeyStrict s⟩ : TPrep).dKeyStrict)) =
        none := by
    intro s hks
    rw [List.find?_eq_none]
    intro y hy
    have hy' := mem_of_mem_dedupBy _ _ _ hy
    rw [List.mem_filter] at hy'
    obtain ⟨hymem, hymi⟩ := hy'
    obtain ⟨cc, hcc, rfl⟩ := List.mem_map.mp hymem
    show ¬(cKeyStrict cc == tKeyStrict s) = true
    rw [hks]
    simpa using hnos cc hcc (by simpa using hymi)
  constructor
  · have hx : (⟨r, tFIRST r, tMI r, tLAST r, tKeyLoose r, tKeyStrict r⟩ : TPrep) ∈
        (prepare_template_names ts).filter (fun y => decide (y.dMI ≠ "")) :=
      List.mem_filter.mpr ⟨List.mem_map_of_mem _ hr, by simpa using hmi⟩
    refine ⟨_, List.mem_map_of_mem _
      (List.mem_append_left _ (List.mem_map_of_mem _ hx)), ?_⟩
    rw [hfind r rfl]
    rfl
  · intro m hm hmt
    simp only [match_template_to_csv] at hm
    obtain ⟨m', hm', rfl⟩ := List.mem_map.mp hm
    have hmt' : m'.t = r := by rw [← relabel_t m']; exact hmt
    rcases List.mem_append.mp hm' with hh | hh
    · obtain ⟨x, hx, hxeq⟩ := List.mem_map.mp hh
      rw [List.mem_filter] at hx
      obtain ⟨hxmem, hxmi⟩ := hx
      obtain ⟨s, hs, rfl⟩ := List.mem_map.mp hxmem
      have hts : m'.t = s := by rw [← hxeq]
      have hsr : s = r := by rw [← hts]; exact hmt'
      subst hsr
      have hc : m'.c = none := by
        rw [← hxeq, hfind s rfl]
        rfl
      refine ⟨?_, ?_⟩
      · rw [relabel_c]; exact hc
      · rw [if_pos (by rw [hc]; rfl)]
    · obtain ⟨x, hx, hxeq⟩ := List.mem_map.mp hh
      rw [List.mem_filter] at hx
      obtain ⟨hxmem, hxcond⟩ := hx
      obtain ⟨s, hs, rfl⟩ := List.mem_map.mp hxmem
      have hts : m'.t = s := by rw [← hxeq]
      have hsr : s = r := by rw [← hts]; exact hmt'
      subst hsr
      exfalso
      have hmem : (⟨s, tFIRST s, tMI s, tLAST s, tKeyLoose s, tKeyStrict s⟩ : TPrep).dKeyStrict ∈
          (((prepare_template_names ts).filter
            (fun y => decide (y.dMI ≠ ""))).map TPrep.dKeyStrict) :=
        List.mem_map_of_mem _ (List.mem_filter.mpr
          ⟨List.mem_map_of_mem _ hs, by simpa using hmi⟩)
      rw [Bool.not_eq_eq_eq_not, Bool.not_true, List.contains_eq_any_beq,
        List.any_eq_false] at hxcond
      exact hxcond _ hmem (by simp)

/-- Claim C1 witness: roster row (Jane, A, Doe) with no strict counterpart
but a loose-key counterpart (Doe, "Jane") in the transaction table. -/
theorem c1_strict_pass_exclusivity_witness :
    (∃ m ∈ match_template_to_csv [⟨"Jane", "A", "Doe"⟩] [⟨"Doe", "Jane"⟩],
      m.t = ⟨"Jane", "A", "Doe"⟩) ∧
    (∀ m ∈ match_template_to_csv [⟨"Jane", "A", "Doe"⟩] [⟨"Doe", "Jane"⟩],
      m.t = ⟨"Jane", "A", "Doe"⟩ →
      m.c = none ∧ m.matchType = "unmatched") :=
  c1_strict_pass_exclusivity [⟨"Jane", "A", "Doe"⟩] [⟨"Doe", "Jane"⟩]
    ⟨"Jane", "A", "Doe"⟩ (by decide) (by decide) (by decide)

/-! ## Claim C6: alias renaming -/

theorem dedupGo_nodup {α κ : Type} [BEq κ] [LawfulBEq κ] (key : α → κ) :
    ∀ (l : List α) (seen : List κ),
      ((dedupGo key seen l).map key).Nodup ∧
      ∀ k ∈ seen, k ∉ (dedupGo key seen l).map key := by
  intro l
  induction l with
  | nil => intro seen; exact ⟨List.nodup_nil, by intro k _ hc; cases hc⟩
  | cons a rest ih =>
    intro seen
    rw [dedupGo]
    split
    · rename_i hcont
      exact ih seen
    · rename_i hcont
      obtain ⟨ih1, ih2⟩ := ih (key a :: seen)
      constructor
      · rw [List.map_cons, List.nodup_cons]
        exact ⟨ih2 (key a) (List.mem_cons_self _ _), ih1⟩
      · intro k hk
        rw [List.map_cons, List.mem_cons]
        rintro (rfl | hmem)
        · exact hcont (by
            rw [List.contains_eq_any_beq]
            exact List.any_eq_true.mpr ⟨key a, hk, by simp⟩)
        · exact ih2 k (List.mem_cons_of_mem _ hk) hmem

theorem dedupBy_id_nodup (l : List String) : (dedupBy id l).Nodup := by
  have h := (dedupGo_nodup (id : String → String) l []).1
  simpa using h

/-- Claim C6 counterexample: the columns `401(k)` and `401 k` both normalize
to `401k` and both satisfy the canonical alias set of `401k`; the claim says
the first in column order is renamed, but the `current` dict is built with
later columns overwriting earlier ones, so the code renames the *last* one
and leaves `401(k)` untouched. -/
theorem c6_counterexample :
    norm "401(k)" = norm "401 k" ∧
    rename_by_alias ["401(k)", "401 k"] (build_alias_map EXPECT_NAMES ALIASES) =
      ["401(k)", "401k"] ∧
    ("401(k)" : String) ≠ "401k" := by
  refine ⟨rfl, rfl, by decide⟩

/-- Claim C6 (amended): when multiple raw columns share a normalized
spelling that satisfies a canonical alias set, the `current` dict maps that
spelling to the *last* such column in column order (the first conjunct: a
resolved column is always a column whose normalized form matches and after
which no other column has the same normalized form), that column is renamed
and the earlier candidates are left unrenamed (concrete second conjunct);
after the duplicate drop every name — in particular every canonical name —
appears at most once as a column. -/
theorem c6_alias_rename (cols : List String) (amap : List (String × List String))
    (v c : String) (h : currentLookup cols v = some c) :
    (∃ pre post, cols = pre ++ c :: post ∧ norm c = v ∧ ∀ d ∈ post, norm d ≠ v) ∧
    (dropDuplicateCols (rename_by_alias cols amap)).Nodup ∧
    rename_by_alias ["401(k)", "401 k"] (build_alias_map EXPECT_NAMES ALIASES) =
      ["401(k)", "401k"] := by
  refine ⟨?_, dedupBy_id_nodup _, rfl⟩
  induction cols using List.reverseRecOn with
  | nil => cases h
  | append_singleton l a ih =>
    unfold currentLookup at h
    rw [List.filter_append] at h
    by_cases ha : norm a == v
    · rw [List.filter_cons, if_pos (by simpa using ha)] at h
      simp only [List.filter_nil] at h
      rw [List.getLast?_concat] at h
      obtain rfl : a = c := by simpa using h
      exact ⟨l, [], rfl, by simpa using ha, by intro d hd; cases hd⟩
    · rw [List.filter_cons, if_neg (by simpa using ha)] at h
      simp only [List.filter_nil, List.append_nil] at h
      obtain ⟨pre, post, rfl, hnc, hpost⟩ := ih h
      refine ⟨pre, post ++ [a], by rw [List.append_assoc]; rfl, hnc, ?_⟩
      intro d hd
      rcases List.mem_append.mp hd with hd | hd
      · exact hpost d hd
      · obtain rfl : d = a := by simpa using hd
        simpa using ha

/-- Claim C6 witness. -/
theorem c6_alias_rename_witness :
    (∃ pre post, (["401(k)", "401 k"] : List String) = pre ++ "401 k" :: post ∧
      norm "401 k" = "401k" ∧ ∀ d ∈ post, norm d ≠ "401k") ∧
    (dropDuplicateCols (rename_by_alias ["401(k)", "401 k"]
      (build_alias_map EXPECT_NAMES ALIASES))).Nodup ∧
    rename_by_alias ["401(k)", "401 k"] (build_alias_map EXPECT_NAMES ALIASES) =
      ["401(k)", "401k"] :=
  c6_alias_rename ["401(k)", "401 k"] (build_alias_map EXPECT_NAMES ALIASES)
    "401k" "401 k" (by decide)

/-! ## Claim C7: numeric coercion -/

/-- Claim C7: `to_num` is total by construction (it is a function into ℚ);
a null/NaN cell, the empty string, and any string whose
currency/percent/grouping/whitespace-stripped form does not parse as a
number all coerce to exactly 0; an already-numeric cell is returned
unchanged; and the spec's example equalities hold. -/
theorem c7_to_num (s : String)
    (h : pyFloat ⟨(pyStrip s).data.filter (fun c => !numJunk c)⟩ = none) :
    to_num (Cell.str s) = 0 ∧
    to_num Cell.null = 0 ∧
    (∀ q : ℚ, to_num (Cell.num q) = q) ∧
    to_num (Cell.str "$1,234.50") = 1234.5 ∧
    to_num (Cell.str "") = 0 ∧
    to_num (Cell.str "bad") = 0 ∧
    to_num (Cell.str " 2,000 ") = 2000 := by
  refine ⟨?_, rfl, fun q => rfl, by decide, rfl, rfl, by decide⟩
  by_cases h1 : pyStrip s = ""
  · simp [to_num, h1]
  · simp only [to_num, if_neg h1, h]

/-- Claim C7 witness. -/
theorem c7_to_num_witness :
    to_num (Cell.str "12x4") = 0 ∧
    to_num Cell.null = 0 ∧
    (∀ q : ℚ, to_num (Cell.num q) = q) ∧
    to_num (Cell.str "$1,234.50") = 1234.5 ∧
    to_num (Cell.str "") = 0 ∧
    to_num (Cell.str "bad") = 0 ∧
    to_num (Cell.str " 2,000 ") = 2000 :=
  c7_to_num "12x4" (by decide)

/-! ## Helper lemmas: DataFrame columns -/

theorem find?_setColGo_self (n : String) (v : List Cell) :
    ∀ l : List (String × List Cell),
      (setColGo n v l).find? (fun p => p.1 == n) = some (n, v) := by
  intro l
  induction l with
  | nil => simp [setColGo, List.find?_cons]
  | cons p rest ih =>
    rw [setColGo]
    by_cases hp : p.1 == n
    · rw [if_pos hp]
      simp [List.find?_cons]
    · rw [if_neg hp]
      have hp' : (p.1 == n) = false := by simpa using hp
      simp [List.find?_cons, hp', ih]

theorem find?_setColGo_ne (n m : String) (v : List Cell) (h : m ≠ n) :
    ∀ l : List (String × List Cell),
      (setColGo n v l).find? (fun p => p.1 == m) = l.find? (fun p => p.1 == m) := by
  have h1 : (n == m) = false := by simpa using Ne.symm h
  intro l
  induction l with
  | nil => simp [setColGo, List.find?_cons, h1]
  | cons p rest ih =>
    rw [setColGo]
    by_cases hp : p.1 == n
    · have hp1 : p.1 = n := by simpa using hp
      have h2 : (p.1 == m) = false := by rw [hp1]; exact h1
      rw [if_pos hp]
      simp [List.find?_cons, h1, h2]
    · rw [if_neg hp]
      by_cases hm : p.1 == m
      · simp [List.find?_cons, hm]
      · have hm' : (p.1 == m) = false := by simpa using hm
        simp [List.find?_cons, hm', ih]

/-- Reading a just-written column. -/
theorem getCol_setCol_self (df : DF) (n : String) (v : List Cell) :
    (df.setCol n v).getCol n = v := by
  unfold DF.getCol DF.setCol
  rw [find?_setColGo_self]

/-- Reading another column after a write. -/
theorem getCol_setCol_ne (df : DF) (n m : String) (v : List Cell) (h : m ≠ n) :
    (df.setCol n v).getCol m = df.getCol m := by
  unfold DF.getCol DF.setCol
  rw [find?_setColGo_ne n m v h]

/-- Reading any column after a write, conditional form. -/
theorem getCol_setCol (df : DF) (n m : String) (v : List Cell) :
    (df.setCol n v).getCol m = if m = n then v else df.getCol m := by
  by_cases h : m = n
  · rw [if_pos h, h, getCol_setCol_self]
  · rw [if_neg h, getCol_setCol_ne df n m v h]

theorem mem_names_setColGo (n m : String) (v : List Cell) :
    ∀ l : List (String × List Cell),
      m ∈ (setColGo n v l).map Prod.fst ↔ (m = n ∨ m ∈ l.map Prod.fst) := by
  intro l
  induction l with
  | nil => simp [setColGo]
  | cons p rest ih =>
    rw [setColGo]
    by_cases hp : p.1 == n
    · have hp1 : p.1 = n := by simpa using hp
      rw [if_pos hp]
      simp only [List.map_cons, List.mem_cons, hp1]
      tauto
    · rw [if_neg hp]
      simp only [List.map_cons, List.mem_cons, ih]
      tauto

/-- Column presence after a write, Prop form. -/
theorem hasCol_setCol_iff (df : DF) (n m : String) (v : List Cell) :
    (df.setCol n v).hasCol m = true ↔ (m = n ∨ df.hasCol m = true) := by
  unfold DF.hasCol DF.names DF.setCol
  constructor
  · intro h
    rcases (mem_names_setColGo n m v df.cols).mp (by simpa using h) with h1 | h1
    · exact Or.inl h1
    · exact Or.inr (by simpa using h1)
  · intro h
    have hmem := (mem_names_setColGo n m v df.cols).mpr (by
      rcases h with h | h
      · exact Or.inl h
      · exact Or.inr (by simpa using h))
    simpa using hmem

/-- Column presence after a write, Bool form for rewriting. -/
theorem hasCol_setCol (df : DF) (n m : String) (v : List Cell) :
    (df.setCol n v).hasCol m = (decide (m = n) || df.hasCol m) := by
  by_cases h : (df.setCol n v).hasCol m = true
  · rcases (hasCol_setCol_iff df n m v).mp h with h1 | h1
    · rw [h, decide_eq_true h1]; rfl
    · rw [h, h1, Bool.or_true]
  · have h2 : ¬(m = n ∨ df.hasCol m = true) :=
      fun hc => h ((hasCol_setCol_iff df n m v).mpr hc)
    push_neg at h2
    rw [Bool.eq_false_iff.mpr h, decide_eq_false h2.1,
      Bool.eq_false_iff.mpr h2.2, Bool.or_false]

theorem setColGo_self (n : String) :
    ∀ l : List (String × List Cell), n ∈ l.map Prod.fst →
      setColGo n (match l.find? (fun p => p.1 == n) with
        | some p => p.2
        | none => []) l = l := by
  intro l
  induction l with
  | nil => intro hmem; cases hmem
  | cons p rest ih =>
    intro hmem
    by_cases hp : p.1 == n
    · have hp1 : p.1 = n := by simpa using hp
      have hfind : (p :: rest).find? (fun q => q.1 == n) = some p := by
        simp [List.find?_cons, hp]
      rw [hfind, setColGo, if_pos hp]
      cases p with
      | mk a b =>
        simp only at hp1
        rw [hp1]
    · have hp' : (p.1 == n) = false := by simpa using hp
      have hfind : (p :: rest).find? (fun q => q.1 == n) =
          rest.find? (fun q => q.1 == n) := by
        simp [List.find?_cons, hp']
      rw [hfind, setColGo, if_neg hp]
      rw [List.map_cons] at hmem
      have hmem' : n ∈ rest.map Prod.fst := by
        rcases List.mem_cons.mp hmem with h1 | h1
        · exact absurd h1.symm (by simpa using hp)
        · exact h1
      rw [ih hmem']

/-- Rewriting an existing column with its own values is the identity. -/
theorem setCol_self (df : DF) (n : String) (h : df.hasCol n = true) :
    df.setCol n (df.getCol n) = df := by
  have hmem : n ∈ df.cols.map Prod.fst := by
    unfold DF.hasCol DF.names at h; simpa using h
  unfold DF.setCol DF.getCol
  cases df with
  | mk cols =>
    congr 1
    exact setColGo_self n cols hmem

/-! ## Helper lemmas: the missing-column defaulting loop -/

theorem fillFold_hasCol_mono (L : List String) :
    ∀ (df : DF) (n : String), df.hasCol n = true →
      (L.foldl (fun o col => if o.hasCol col then o
        else o.setCol col (List.replicate o.nRows (Cell.num 0))) df).hasCol n = true := by
  induction L with
  | nil => intro df n h; exact h
  | cons c L' ih =>
    intro df n h
    rw [List.foldl_cons]
    by_cases hc : df.hasCol c
    · rw [if_pos hc]; exact ih df n h
    · rw [if_neg hc]
      exact ih _ n ((hasCol_setCol_iff df c n _).mpr (Or.inr h))

theorem fillFold_hasCol_of_mem (L : List String) :
    ∀ (df : DF) (n : String), n ∈ L →
      (L.foldl (fun o col => if o.hasCol col then o
        else o.setCol col (List.replicate o.nRows (Cell.num 0))) df).hasCol n = true := by
  induction L with
  | nil => intro df n h; cases h
  | cons c L' ih =>
    intro df n h
    rw [List.foldl_cons]
    rcases List.mem_cons.mp h with rfl | h'
    · by_cases hc : df.hasCol n
      · rw [if_pos hc]; exact fillFold_hasCol_mono L' df n hc
      · rw [if_neg hc]
        exact fillFold_hasCol_mono L' _ n
          ((hasCol_setCol_iff df n n _).mpr (Or.inl rfl))
    · by_cases hc : df.hasCol c
      · rw [if_pos hc]; exact ih df n h'
      · rw [if_neg hc]; exact ih _ n h'

theorem fillFold_getCol_of_hasCol (L : List String) :
    ∀ (df : DF) (n : String), df.hasCol n = true →
      (L.foldl (fun o col => if o.hasCol col then o
        else o.setCol col (List.replicate o.nRows (Cell.num 0))) df).getCol n =
        df.getCol n := by
  induction L with
  | nil => intro df n _; rfl
  | cons c L' ih =>
    intro df n h
    rw [List.foldl_cons]
    by_cases hc : df.hasCol c
    · rw [if_pos hc]; exact ih df n h
    · rw [if_neg hc]
      have hcn : n ≠ c := by
        intro hcontra
        rw [hcontra] at h
        exact absurd h (by simpa using hc)
      rw [ih _ n ((hasCol_setCol_iff df c n _).mpr (Or.inr h)),
        getCol_setCol_ne df c n _ hcn]

theorem fillFold_id_of_all (L : List String) :
    ∀ (df : DF), (∀ n ∈ L, df.hasCol n = true) →
      (L.foldl (fun o col => if o.hasCol col then o
        else o.setCol col (List.replicate o.nRows (Cell.num 0))) df) = df := by
  induction L with
  | nil => intro df _; rfl
  | cons c L' ih =>
    intro df h
    rw [List.foldl_cons, if_pos (h c (List.mem_cons_self _ _))]
    exact ih df (fun n hn => h n (List.mem_cons_of_mem _ hn))

theorem fillFold_missing_zero (L : List String) :
    ∀ (df : DF) (n : String), n ∈ L → df.hasCol n = false →
      ∃ k, (L.foldl (fun o col => if o.hasCol col then o
        else o.setCol col (List.replicate o.nRows (Cell.num 0))) df).getCol n =
        List.replicate k (Cell.num 0) := by
  induction L with
  | nil => intro df n h; cases h
  | cons c L' ih =>
    intro df n hmem hfalse
    rw [List.foldl_cons]
    by_cases hcn : c = n
    · subst hcn
      rw [if_neg (by simp [hfalse])]
      refine ⟨df.nRows, ?_⟩
      rw [fillFold_getCol_of_hasCol L' _ c
        ((hasCol_setCol_iff df c c _).mpr (Or.inl rfl)),
        getCol_setCol_self]
    · have h' : n ∈ L' := by
        rcases List.mem_cons.mp hmem with h1 | h1
        · exact absurd h1.symm hcn
        · exact h1
      by_cases hc : df.hasCol c
      · rw [if_pos hc]; exact ih df n h' hfalse
      · rw [if_neg hc]
        refine ih _ n h' ?_
        rw [Bool.eq_false_iff]
        intro hcontra
        rcases (hasCol_setCol_iff df c n _).mp hcontra with h1 | h1
        · exact hcn h1.symm
        · exact absurd h1 (by simpa using hfalse)

/-! ## Helper lemmas: coercion of columns -/

theorem mapToNum_zero_cells (v : List Cell) (h : ∀ c ∈ v, c = Cell.num 0) :
    ∀ c ∈ mapToNum v, c = Cell.num 0 := by
  intro c hc
  obtain ⟨d, hd, rfl⟩ := List.mem_map.mp hc
  rw [h d hd]
  rfl

theorem mapToNum_mapToNum (v : List Cell) : mapToNum (mapToNum v) = mapToNum v := by
  unfold mapToNum
  rw [List.map_map]
  apply List.map_congr_left
  intro c _
  rfl

theorem zipWith_add_replicate_zero :
    ∀ (l : List ℚ) (n : Nat), l.length = n →
      List.zipWith (· + ·) l (List.replicate n (0 : ℚ)) = l := by
  intro l
  induction l with
  | nil => intro n _; simp
  | cons a t ih =>
    intro n h
    cases n with
    | zero => cases h
    | succ n' =>
      rw [List.replicate_succ, List.zipWith_cons_cons, add_zero,
        ih n' (by simpa using h)]

/-! ## Claim C8: field mapping -/

theorem getCol_length_of_hasCol (df : DF) (hrect : df.Rect) (n : String)
    (h : df.hasCol n = true) : (df.getCol n).length = df.nRows := by
  unfold DF.getCol
  cases hfind : df.cols.find? (fun p => p.1 == n) with
  | some p => exact hrect p (List.mem_of_find?_eq_some hfind)
  | none =>
    exfalso
    unfold DF.hasCol DF.names at h
    have hmem : n ∈ df.cols.map Prod.fst := by simpa using h
    obtain ⟨p, hp, hpn⟩ := List.mem_map.mp hmem
    have := List.find?_eq_none.mp hfind p hp
    exact this (by simpa using hpn)

/-- Claim C8 counterexample: the raw pay-date column is a non-numeric raw
source column, and the claim says a missing non-numeric column is left
absent; but `apply_field_mapping` creates it with the numeric default 0.0
and copies that zero into "Check Date". -/
theorem c8_counterexample :
    (DF.hasCol ⟨[("Regular Hours", [Cell.str "8"])]⟩ "Pay Date" = false) ∧
    ((apply_field_mapping ⟨[("Regular Hours", [Cell.str "8"])]⟩).hasCol
      "Pay Date" = true) ∧
    ((apply_field_mapping ⟨[("Regular Hours", [Cell.str "8"])]⟩).getCol
      "Pay Date" = [Cell.num 0]) ∧
    ((apply_field_mapping ⟨[("Regular Hours", [Cell.str "8"])]⟩).getCol
      "Check Date" = [Cell.num 0]) := by
  refine ⟨rfl, rfl, rfl, rfl⟩

/-- Claim C8 (amended): `apply_field_mapping` defaults *every* missing raw
source column — the numeric ones and also the non-numeric pay-date column —
to zero (first conjunct: the column exists afterwards and all its cells are
0.0); the derived total-hours column is the elementwise sum of coerced
regular, overtime and PTO hours, with PTO contributing zero when its column
is absent; and when the raw pay-date column is present the check-date
output column is a verbatim copy of it. -/
theorem c8_field_mapping (df : DF) (hrect : df.Rect)
    (hreg : df.hasCol "Regular Hours" = true)
    (hot : df.hasCol "Overtime Hours" = true) :
    (∀ col ∈ RAW_LIST, df.hasCol col = false →
      (apply_field_mapping df).hasCol col = true ∧
      ∀ c ∈ (apply_field_mapping df).getCol col, c = Cell.num 0) ∧
    (df.hasCol "Vacation/PTO Hours" = true →
      (apply_field_mapping df).getCol "Current Period Hours Worked" =
        (List.zipWith (· + ·) (List.zipWith (· + ·)
          ((df.getCol "Regular Hours").map to_num)
          ((df.getCol "Overtime Hours").map to_num))
          ((df.getCol "Vacation/PTO Hours").map to_num)).map Cell.num) ∧
    (df.hasCol "Vacation/PTO Hours" = false →
      (apply_field_mapping df).getCol "Current Period Hours Worked" =
        (List.zipWith (· + ·)
          ((df.getCol "Regular Hours").map to_num)
          ((df.getCol "Overtime Hours").map to_num)).map Cell.num) ∧
    (df.hasCol "Pay Date" = true →
      (apply_field_mapping df).getCol "Check Date" = df.getCol "Pay Date") := by
  have h1 : (fillMissing df).hasCol "Regular Hours" = true :=
    fillFold_hasCol_of_mem RAW_LIST df _ (by decide)
  have h2 : (fillMissing df).hasCol "Overtime Hours" = true :=
    fillFold_hasCol_of_mem RAW_LIST df _ (by decide)
  have h3 : (fillMissing df).hasCol "Vacation/PTO Hours" = true :=
    fillFold_hasCol_of_mem RAW_LIST df _ (by decide)
  have e1 : (fillMissing df).getCol "Regular Hours" = df.getCol "Regular Hours" :=
    fillFold_getCol_of_hasCol RAW_LIST df _ hreg
  have e2 : (fillMissing df).getCol "Overtime Hours" = df.getCol "Overtime Hours" :=
    fillFold_getCol_of_hasCol RAW_LIST df _ hot
  refine ⟨?_, ?_, ?_, ?_⟩
  · intro col hcol habsent
    have hfillhas : (fillMissing df).hasCol col = true :=
      fillFold_hasCol_of_mem RAW_LIST df col hcol
    obtain ⟨k, hk0⟩ := fillFold_missing_zero RAW_LIST df col hcol habsent
    have hk : (fillMissing df).getCol col = List.replicate k (Cell.num 0) := hk0
    refine ⟨by simp [apply_field_mapping, hasCol_setCol, hfillhas], ?_⟩
    simp only [RAW_LIST, List.mem_cons, List.not_mem_nil, or_false] at hcol
    have hrepl : ∀ c ∈ List.replicate k (Cell.num 0), c = Cell.num 0 :=
      fun c hc => List.eq_of_mem_replicate hc
    rcases hcol with rfl|rfl|rfl|rfl|rfl|rfl|rfl|rfl|rfl|rfl
    · have hg : (apply_field_mapping df).getCol "Regular Hours" =
          (fillMissing df).getCol "Regular Hours" := by
        simp [apply_field_mapping, getCol_setCol]
      intro c hc; rw [hg, hk] at hc; exact hrepl c hc
    · have hg : (apply_field_mapping df).getCol "Overtime Hours" =
          (fillMissing df).getCol "Overtime Hours" := by
        simp [apply_field_mapping, getCol_setCol]
      intro c hc; rw [hg, hk] at hc; exact hrepl c hc
    · have hg : (apply_field_mapping df).getCol "Vacation/PTO Hours" =
          (fillMissing df).getCol "Vacation/PTO Hours" := by
        simp [apply_field_mapping, getCol_setCol]
      intro c hc; rw [hg, hk] at hc; exact hrepl c hc
    · have hg : (apply_field_mapping df).getCol "401k" =
          (fillMissing df).getCol "401k" := by
        simp [apply_field_mapping, getCol_setCol]
      intro c hc; rw [hg, hk] at hc; exact hrepl c hc
    · have hg : (apply_field_mapping df).getCol "401k Catchup" =
          (fillMissing df).getCol "401k Catchup" := by
        simp [apply_field_mapping, getCol_setCol]
      intro c hc; rw [hg, hk] at hc; exact hrepl c hc
    · have hg : (apply_field_mapping df).getCol "Roth 401K" =
          (fillMissing df).getCol "Roth 401K" := by
        simp [apply_field_mapping, getCol_setCol]
      intro c hc; rw [hg, hk] at hc; exact hrepl c hc
    · have hg : (apply_field_mapping df).getCol "Roth Catchup" =
          mapToNum ((fillMissing df).getCol "Roth Catchup") := by
        simp [apply_field_mapping, getCol_setCol]
      intro c hc
      rw [hg, hk] at hc
      exact mapToNum_zero_cells _ hrepl c hc
    · have hg : (apply_field_mapping df).getCol "401K Match 2" =
          (fillMissing df).getCol "401K Match 2" := by
        simp [apply_field_mapping, getCol_setCol]
      intro c hc; rw [hg, hk] at hc; exact hrepl c hc
    · have hg : (apply_field_mapping df).getCol "Gross Pay" =
          (fillMissing df).getCol "Gross Pay" := by
        simp [apply_field_mapping, getCol_setCol]
      intro c hc; rw [hg, hk] at hc; exact hrepl c hc
    · have hg : (apply_field_mapping df).getCol "Pay Date" =
          (fillMissing df).getCol "Pay Date" := by
        simp [apply_field_mapping, getCol_setCol]
      intro c hc; rw [hg, hk] at hc; exact hrepl c hc
  · intro hpto
    have e3 : (fillMissing df).getCol "Vacation/PTO Hours" =
        df.getCol "Vacation/PTO Hours" :=
      fillFold_getCol_of_hasCol RAW_LIST df _ hpto
    simp [apply_field_mapping, getCol_setCol, hasCol_setCol, h1, h2, h3,
      e1, e2, e3]
  · intro hpto
    have hptofill : (fillMissing df).getCol "Vacation/PTO Hours" =
        List.replicate df.nRows (Cell.num 0) := by
      show (RAW_LIST.foldl (fun o col => if o.hasCol col then o
        else o.setCol col (List.replicate o.nRows (Cell.num 0))) df).getCol
          "Vacation/PTO Hours" = List.replicate df.nRows (Cell.num 0)
      rw [RAW_LIST]
      rw [List.foldl_cons, if_pos hreg, List.foldl_cons, if_pos hot,
        List.foldl_cons, if_neg (by simp [hpto])]
      rw [fillFold_getCol_of_hasCol _ _ _
        ((hasCol_setCol_iff df _ _ _).mpr (Or.inl rfl)), getCol_setCol_self]
    have hlen : (List.zipWith (· + ·)
        ((df.getCol "Regular Hours").map to_num)
        ((df.getCol "Overtime Hours").map to_num)).length = df.nRows := by
      rw [List.length_zipWith, List.length_map, List.length_map,
        getCol_length_of_hasCol df hrect _ hreg,
        getCol_length_of_hasCol df hrect _ hot, Nat.min_self]
    have hz := zipWith_add_replicate_zero _ df.nRows hlen
    simp only [apply_field_mapping, getCol_setCol, hasCol_setCol, h1, h2, h3,
      e1, e2, hptofill, reduceIte, String.reduceEq, decide_False, decide_True,
      Bool.false_or, Bool.true_or, if_true, if_false]
    rw [List.map_replicate, show to_num (Cell.num 0) = 0 from rfl, hz]
  · intro hpd
    have e4 : (fillMissing df).getCol "Pay Date" = df.getCol "Pay Date" :=
      fillFold_getCol_of_hasCol RAW_LIST df _ hpd
    simp [apply_field_mapping, getCol_setCol, hasCol_setCol, h1, h2, h3, e4]

/-- Claim C8 witness. -/
theorem c8_field_mapping_witness :
    ((∀ col ∈ RAW_LIST,
        (⟨[("Regular Hours", [Cell.str "8"]),
           ("Overtime Hours", [Cell.str "2"])]⟩ : DF).hasCol col = false →
      (apply_field_mapping ⟨[("Regular Hours", [Cell.str "8"]),
           ("Overtime Hours", [Cell.str "2"])]⟩).hasCol col = true ∧
      ∀ c ∈ (apply_field_mapping ⟨[("Regular Hours", [Cell.str "8"]),
           ("Overtime Hours", [Cell.str "2"])]⟩).getCol col, c = Cell.num 0) ∧
    ((⟨[("Regular Hours", [Cell.str "8"]),
        ("Overtime Hours", [Cell.str "2"])]⟩ : DF).hasCol
        "Vacation/PTO Hours" = true →
      (apply_field_mapping ⟨[("Regular Hours", [Cell.str "8"]),
           ("Overtime Hours", [Cell.str "2"])]⟩).getCol
          "Current Period Hours Worked" =
        (List.zipWith (· + ·) (List.zipWith (· + ·)
          (((⟨[("Regular Hours", [Cell.str "8"]),
              ("Overtime Hours", [Cell.str "2"])]⟩ : DF).getCol
            "Regular Hours").map to_num)
          (((⟨[("Regular Hours", [Cell.str "8"]),
              ("Overtime Hours", [Cell.str "2"])]⟩ : DF).getCol
            "Overtime Hours").map to_num))
          (((⟨[("Regular Hours", [Cell.str "8"]),
              ("Overtime Hours", [Cell.str "2"])]⟩ : DF).getCol
            "Vacation/PTO Hours").map to_num)).map Cell.num) ∧
    ((⟨[("Regular Hours", [Cell.str "8"]),
        ("Overtime Hours", [Cell.str "2"])]⟩ : DF).hasCol
        "Vacation/PTO Hours" = false →
      (apply_field_mapping ⟨[("Regular Hours", [Cell.str "8"]),
           ("Overtime Hours", [Cell.str "2"])]⟩).getCol
          "Current Period Hours Worked" =
        (List.zipWith (· + ·)
          (((⟨[("Regular Hours", [Cell.str "8"]),
              ("Overtime Hours", [Cell.str "2"])]⟩ : DF).getCol
            "Regular Hours").map to_num)
          (((⟨[("Regular Hours", [Cell.str "8"]),
              ("Overtime Hours", [Cell.str "2"])]⟩ : DF).getCol
            "Overtime Hours").map to_num)).map Cell.num) ∧
    ((⟨[("Regular Hours", [Cell.str "8"]),
        ("Overtime Hours", [Cell.str "2"])]⟩ : DF).hasCol "Pay Date" = true →
      (apply_field_mapping ⟨[("Regular Hours", [Cell.str "8"]),
           ("Overtime Hours", [Cell.str "2"])]⟩).getCol "Check Date" =
        (⟨[("Regular Hours", [Cell.str "8"]),
           ("Overtime Hours", [Cell.str "2"])]⟩ : DF).getCol "Pay Date")) :=
  c8_field_mapping
    ⟨[("Regular Hours", [Cell.str "8"]), ("Overtime Hours", [Cell.str "2"])]⟩
    (by decide) (by decide) (by decide)

/-! ## Claim C9: idempotence of the field mapping -/

/-- Claim C9: applying the field mapping twice is the same as applying it
once.  The second pass finds every raw column present (the defaulting loop
is the identity), recomputes every output column from raw columns that the
first pass left untouched — except "Roth Catchup", whose name is shared
between raw and output and which was overwritten with coerced values, where
re-coercion changes nothing (`to_num` is the identity on float cells) — and
so rewrites every column with the value it already has. -/
theorem c9_idempotent (df : DF) (hnd : df.names.Nodup) :
    apply_field_mapping (apply_field_mapping df) = apply_field_mapping df := by
  have hf1 : (fillMissing df).hasCol "Regular Hours" = true :=
    fillFold_hasCol_of_mem RAW_LIST df _ (by decide)
  have hf2 : (fillMissing df).hasCol "Overtime Hours" = true :=
    fillFold_hasCol_of_mem RAW_LIST df _ (by decide)
  have hf3 : (fillMissing df).hasCol "Vacation/PTO Hours" = true :=
    fillFold_hasCol_of_mem RAW_LIST df _ (by decide)
  set A := apply_field_mapping df with hA
  have pFill : ∀ m, (fillMissing df).hasCol m = true → A.hasCol m = true := by
    intro m hm
    rw [hA]
    simp [apply_field_mapping, hasCol_setCol, hm]
  have pRH : A.hasCol "Regular Hours" = true := pFill _ hf1
  have pOT : A.hasCol "Overtime Hours" = true := pFill _ hf2
  have pPTO : A.hasCol "Vacation/PTO Hours" = true := pFill _ hf3
  have p401 : A.hasCol "401k" = true :=
    pFill _ (fillFold_hasCol_of_mem RAW_LIST df _ (by decide))
  have p401C : A.hasCol "401k Catchup" = true :=
    pFill _ (fillFold_hasCol_of_mem RAW_LIST df _ (by decide))
  have pR401K : A.hasCol "Roth 401K" = true :=
    pFill _ (fillFold_hasCol_of_mem RAW_LIST df _ (by decide))
  have pRC : A.hasCol "Roth Catchup" = true :=
    pFill _ (fillFold_hasCol_of_mem RAW_LIST df _ (by decide))
  have pM2 : A.hasCol "401K Match 2" = true :=
    pFill _ (fillFold_hasCol_of_mem RAW_LIST df _ (by decide))
  have pGP : A.hasCol "Gross Pay" = true :=
    pFill _ (fillFold_hasCol_of_mem RAW_LIST df _ (by decide))
  have pPD : A.hasCol "Pay Date" = true :=
    pFill _ (fillFold_hasCol_of_mem RAW_LIST df _ (by decide))
  have pPretax : A.hasCol "Pretax" = true := by
    rw [hA]; simp [apply_field_mapping, hasCol_setCol]
  have pPTC : A.hasCol "Pre-Tax Catchup" = true := by
    rw [hA]; simp [apply_field_mapping, hasCol_setCol]
  have pRoth : A.hasCol "Roth" = true := by
    rw [hA]; simp [apply_field_mapping, hasCol_setCol]
  have pSH : A.hasCol "Safe Harbor Non-Elective" = true := by
    rw [hA]; simp [apply_field_mapping, hasCol_setCol]
  have pCPC : A.hasCol "Current Period Compensation" = true := by
    rw [hA]; simp [apply_field_mapping, hasCol_setCol]
  have pCPH : A.hasCol "Current Period Hours Worked" = true := by
    rw [hA]; simp [apply_field_mapping, hasCol_setCol]
  have pCD : A.hasCol "Check Date" = true := by
    rw [hA]; simp [apply_field_mapping, hasCol_setCol]
  have aRH : A.getCol "Regular Hours" = (fillMissing df).getCol "Regular Hours" := by
    rw [hA]; simp [apply_field_mapping, getCol_setCol]
  have aOT : A.getCol "Overtime Hours" = (fillMissing df).getCol "Overtime Hours" := by
    rw [hA]; simp [apply_field_mapping, getCol_setCol]
  have aPTO : A.getCol "Vacation/PTO Hours" =
      (fillMissing df).getCol "Vacation/PTO Hours" := by
    rw [hA]; simp [apply_field_mapping, getCol_setCol]
  have a401 : A.getCol "401k" = (fillMissing df).getCol "401k" := by
    rw [hA]; simp [apply_field_mapping, getCol_setCol]
  have a401C : A.getCol "401k Catchup" = (fillMissing df).getCol "401k Catchup" := by
    rw [hA]; simp [apply_field_mapping, getCol_setCol]
  have aR401K : A.getCol "Roth 401K" = (fillMissing df).getCol "Roth 401K" := by
    rw [hA]; simp [apply_field_mapping, getCol_setCol]
  have aM2 : A.getCol "401K Match 2" = (fillMissing df).getCol "401K Match 2" := by
    rw [hA]; simp [apply_field_mapping, getCol_setCol]
  have aGP : A.getCol "Gross Pay" = (fillMissing df).getCol "Gross Pay" := by
    rw [hA]; simp [apply_field_mapping, getCol_setCol]
  have aPD : A.getCol "Pay Date" = (fillMissing df).getCol "Pay Date" := by
    rw [hA]; simp [apply_field_mapping, getCol_setCol]
  have aRC : A.getCol "Roth Catchup" =
      mapToNum ((fillMissing df).getCol "Roth Catchup") := by
    rw [hA]; simp [apply_field_mapping, getCol_setCol]
  have aPretax : A.getCol "Pretax" = mapToNum ((fillMissing df).getCol "401k") := by
    rw [hA]; simp [apply_field_mapping, getCol_setCol]
  have aPTC : A.getCol "Pre-Tax Catchup" =
      mapToNum ((fillMissing df).getCol "401k Catchup") := by
    rw [hA]; simp [apply_field_mapping, getCol_setCol]
  have aRoth : A.getCol "Roth" = mapToNum ((fillMissing df).getCol "Roth 401K") := by
    rw [hA]; simp [apply_field_mapping, getCol_setCol]
  have aSH : A.getCol "Safe Harbor Non-Elective" =
      mapToNum ((fillMissing df).getCol "401K Match 2") := by
    rw [hA]; simp [apply_field_mapping, getCol_setCol]
  have aCPC : A.getCol "Current Period Compensation" =
      mapToNum ((fillMissing df).getCol "Gross Pay") := by
    rw [hA]; simp [apply_field_mapping, getCol_setCol]
  have aH : A.getCol "Current Period Hours Worked" =
      (List.zipWith (· + ·) (List.zipWith (· + ·)
        (((fillMissing df).getCol "Regular Hours").map to_num)
        (((fillMissing df).getCol "Overtime Hours").map to_num))
        (((fillMissing df).getCol "Vacation/PTO Hours").map to_num)).map
        Cell.num := by
    rw [hA]
    simp only [apply_field_mapping, getCol_setCol, hasCol_setCol, hf1, hf2, hf3,
      String.reduceEq, decide_False, decide_True, Bool.false_or, Bool.true_or,
      Bool.or_true, reduceIte]
  have aCD : A.getCol "Check Date" = (fillMissing df).getCol "Pay Date" := by
    rw [hA]; simp [apply_field_mapping, getCol_setCol]
  have hfillA : fillMissing A = A := by
    apply fillFold_id_of_all
    intro n hn
    simp only [RAW_LIST, List.mem_cons, List.not_mem_nil, or_false] at hn
    rcases hn with rfl|rfl|rfl|rfl|rfl|rfl|rfl|rfl|rfl|rfl
    exacts [pRH, pOT, pPTO, p401, p401C, pR401K, pRC, pM2, pGP, pPD]
  simp only [apply_field_mapping]
  rw [show fillMissing A = A from hfillA]
  rw [show mapToNum (A.getCol "401k") = A.getCol "Pretax" by
    rw [a401, aPretax]]
  rw [setCol_self A "Pretax" pPretax]
  rw [show mapToNum (A.getCol "401k Catchup") = A.getCol "Pre-Tax Catchup" by
    rw [a401C, aPTC]]
  rw [setCol_self A "Pre-Tax Catchup" pPTC]
  rw [show mapToNum (A.getCol "Roth 401K") = A.getCol "Roth" by
    rw [aR401K, aRoth]]
  rw [setCol_self A "Roth" pRoth]
  rw [show mapToNum (A.getCol "Roth Catchup") = A.getCol "Roth Catchup" by
    rw [aRC, mapToNum_mapToNum]]
  rw [setCol_self A "Roth Catchup" pRC]
  rw [show mapToNum (A.getCol "401K Match 2") = A.getCol "Safe Harbor Non-Elective" by
    rw [aM2, aSH]]
  rw [setCol_self A "Safe Harbor Non-Elective" pSH]
  rw [show mapToNum (A.getCol "Gross Pay") = A.getCol "Current Period Compensation" by
    rw [aGP, aCPC]]
  rw [setCol_self A "Current Period Compensation" pCPC]
  rw [if_pos pRH, if_pos pOT, if_pos pPTO]
  rw [show (List.zipWith (· + ·) (List.zipWith (· + ·)
      ((A.getCol "Regular Hours").map to_num)
      ((A.getCol "Overtime Hours").map to_num))
      ((A.getCol "Vacation/PTO Hours").map to_num)).map Cell.num =
      A.getCol "Current Period Hours Worked" by
    rw [aRH, aOT, aPTO, aH]]
  rw [setCol_self A "Current Period Hours Worked" pCPH]
  rw [show A.getCol "Pay Date" = A.getCol "Check Date" by rw [aPD, aCD]]
  rw [setCol_self A "Check Date" pCD]

/-- Claim C9 witness. -/
theorem c9_idempotent_witness :
    apply_field_mapping (apply_field_mapping
      ⟨[("Roth Catchup", [Cell.str "$5"]),
        ("Pay Date", [Cell.str "2025-09-05"])]⟩) =
    apply_field_mapping
      ⟨[("Roth Catchup", [Cell.str "$5"]),
        ("Pay Date", [Cell.str "2025-09-05"])]⟩ :=
  c9_idempotent
    ⟨[("Roth Catchup", [Cell.str "$5"]), ("Pay Date", [Cell.str "2025-09-05"])]⟩
    (by decide)

/-! ## Claim C10: the transformations do not mutate their inputs -/

theorem read_lt_length {s : Store} {r : Nat} {o : PyObj}
    (h : s.read r = some o) : r < s.length := by
  unfold Store.read at h
  exact List.get?_eq_some.mp h |>.1

theorem read_append_one {s : Store} {r : Nat} (o : PyObj) (h : r < s.length) :
    (s ++ [o]).read r = s.read r := by
  unfold Store.read
  rw [List.get?_eq_getElem?, List.get?_eq_getElem?]
  exact List.getElem?_append_left h

theorem read_concat_fresh (s : Store) (o : PyObj) :
    (s ++ [o]).read s.length = some o := by
  unfold Store.read
  rw [List.get?_eq_getElem?]
  exact List.getElem?_concat_length s o

theorem read_write_ne {s : Store} {r r' : Nat} (o : PyObj) (h : r ≠ r') :
    (s.write r' o).read r = s.read r :=
  List.get?_set_ne o s (fun hc => h hc.symm)

theorem read_write_self {s : Store} {r : Nat} (o : PyObj) (h : r < s.length) :
    (s.write r o).read r = some o :=
  List.get?_set_eq_of_lt o h

/-- Claim C10: `prepare_template_names`, `prepare_csv_names`,
`match_template_to_csv` and `apply_field_mapping` are non-mutating: each
allocates a copy for its output (`out = df.copy()`; the prepares inside the
matcher), writes only to objects it allocated, and leaves the frame behind
every argument reference exactly as it was, while the allocated result holds
the value of the corresponding pure function. -/
theorem c10_no_mutation (s : Store) (tRef cRef fRef : Nat) (ts : List TRow)
    (cs : List CRow) (df : DF)
    (ht : s.read tRef = some (PyObj.tdf ts))
    (hc : s.read cRef = some (PyObj.cdf cs))
    (hf : s.read fRef = some (PyObj.fdf df)) :
    ((prepare_template_namesS s tRef).1.read tRef = some (PyObj.tdf ts) ∧
     (prepare_template_namesS s tRef).1.read (prepare_template_namesS s tRef).2 =
       some (PyObj.tpdf (prepare_template_names ts))) ∧
    ((prepare_csv_namesS s cRef).1.read cRef = some (PyObj.cdf cs) ∧
     (prepare_csv_namesS s cRef).1.read (prepare_csv_namesS s cRef).2 =
       some (PyObj.cpdf (prepare_csv_names cs))) ∧
    ((match_template_to_csvS s tRef cRef).1.read tRef = some (PyObj.tdf ts) ∧
     (match_template_to_csvS s tRef cRef).1.read cRef = some (PyObj.cdf cs) ∧
     (match_template_to_csvS s tRef cRef).1.read
         (match_template_to_csvS s tRef cRef).2 =
       some (PyObj.mdf (match_template_to_csv ts cs))) ∧
    ((apply_field_mappingS s fRef).1.read fRef = some (PyObj.fdf df) ∧
     (apply_field_mappingS s fRef).1.read (apply_field_mappingS s fRef).2 =
       some (PyObj.fdf (apply_field_mapping df))) := by
  have htlt : tRef < s.length := read_lt_length ht
  have hclt : cRef < s.length := read_lt_length hc
  have hflt : fRef < s.length := read_lt_length hf
  have hprepT : prepare_template_namesS s tRef =
      ((s ++ [PyObj.tdf ts]).write s.length
        (PyObj.tpdf (prepare_template_names ts)), s.length) := by
    unfold prepare_template_namesS
    rw [ht]
    rfl
  have hprepT_read_t : (prepare_template_namesS s tRef).1.read tRef =
      some (PyObj.tdf ts) := by
    rw [hprepT]
    rw [read_write_ne _ (Nat.ne_of_lt htlt), read_append_one _ htlt]
    exact ht
  have hprepT_read_out : (prepare_template_namesS s tRef).1.read
      (prepare_template_namesS s tRef).2 =
      some (PyObj.tpdf (prepare_template_names ts)) := by
    rw [hprepT]
    exact read_write_self _ (by simp)
  have hprepT_read_other : ∀ r, r < s.length →
      (prepare_template_namesS s tRef).1.read r = s.read r := by
    intro r hr
    rw [hprepT]
    rw [read_write_ne _ (Nat.ne_of_lt hr), read_append_one _ hr]
  have hprepT_len : (prepare_template_namesS s tRef).1.length = s.length + 1 := by
    rw [hprepT]
    unfold Store.write
    rw [List.length_set, List.length_append]
    rfl
  refine ⟨⟨hprepT_read_t, hprepT_read_out⟩, ?_, ?_, ?_⟩
  · have hprepC0 : prepare_csv_namesS s cRef =
        ((s ++ [PyObj.cdf cs]).write s.length
          (PyObj.cpdf (prepare_csv_names cs)), s.length) := by
      unfold prepare_csv_namesS
      rw [hc]
      rfl
    constructor
    · rw [hprepC0]
      rw [read_write_ne _ (Nat.ne_of_lt hclt), read_append_one _ hclt]
      exact hc
    · rw [hprepC0]
      exact read_write_self _ (by simp)
  · have hreadc1 : (prepare_template_namesS s tRef).1.read cRef =
        some (PyObj.cdf cs) := by
      rw [hprepT_read_other cRef hclt]; exact hc
    have hprepC : prepare_csv_namesS (prepare_template_namesS s tRef).1 cRef =
        (((prepare_template_namesS s tRef).1 ++ [PyObj.cdf cs]).write
          (prepare_template_namesS s tRef).1.length
          (PyObj.cpdf (prepare_csv_names cs)),
         (prepare_template_namesS s tRef).1.length) := by
      unfold prepare_csv_namesS
      rw [hreadc1]
      rfl
    have hprepC_read_other : ∀ r, r < (prepare_template_namesS s tRef).1.length →
        (prepare_csv_namesS (prepare_template_namesS s tRef).1 cRef).1.read r =
          (prepare_template_namesS s tRef).1.read r := by
      intro r hr
      rw [hprepC]
      rw [read_write_ne _ (Nat.ne_of_lt hr), read_append_one _ hr]
    have htlt1 : tRef < (prepare_template_namesS s tRef).1.length := by
      rw [hprepT_len]; omega
    have hclt1 : cRef < (prepare_template_namesS s tRef).1.length := by
      rw [hprepT_len]; omega
    have hreadt2 : (prepare_csv_namesS (prepare_template_namesS s tRef).1
        cRef).1.read tRef = some (PyObj.tdf ts) := by
      rw [hprepC_read_other tRef htlt1]
      exact hprepT_read_t
    have hreadc2 : (prepare_csv_namesS (prepare_template_namesS s tRef).1
        cRef).1.read cRef = some (PyObj.cdf cs) := by
      rw [hprepC_read_other cRef hclt1]
      exact hreadc1
    have htlt2 : tRef <
        (prepare_csv_namesS (prepare_template_namesS s tRef).1 cRef).1.length :=
      read_lt_length hreadt2
    have hclt2 : cRef <
        (prepare_csv_namesS (prepare_template_namesS s tRef).1 cRef).1.length :=
      read_lt_length hreadc2
    have hmatchS : match_template_to_csvS s tRef cRef =
        ((prepare_csv_namesS (prepare_template_namesS s tRef).1 cRef).1 ++
          [PyObj.mdf (match_template_to_csv ts cs)],
         (prepare_csv_namesS (prepare_template_namesS s tRef).1 cRef).1.length) := by
      unfold match_template_to_csvS
      rw [ht, hc]
      rfl
    rw [hmatchS]
    refine ⟨?_, ?_, ?_⟩
    · rw [read_append_one _ htlt2]
      exact hreadt2
    · rw [read_append_one _ hclt2]
      exact hreadc2
    · exact read_concat_fresh _ _
  · have happly : apply_field_mappingS s fRef =
        ((s ++ [PyObj.fdf df]).write s.length
          (PyObj.fdf (apply_field_mapping df)), s.length) := by
      unfold apply_field_mappingS
      rw [hf]
      rfl
    constructor
    · rw [happly]
      rw [read_write_ne _ (Nat.ne_of_lt hflt), read_append_one _ hflt]
      exact hf
    · rw [happly]
      exact read_write_self _ (by simp)

/-- Claim C10 witness: a three-object store holding a roster frame, a
transaction frame and a matched frame. -/
theorem c10_no_mutation_witness :
    (((prepare_template_namesS
        [PyObj.tdf [⟨"Jane", "A", "Doe"⟩], PyObj.cdf [⟨"Doe", "Jane A"⟩],
         PyObj.fdf ⟨[("Gross Pay", [Cell.str "$10"])]⟩] 0).1.read 0 =
        some (PyObj.tdf [⟨"Jane", "A", "Doe"⟩]) ∧
      (prepare_template_namesS
        [PyObj.tdf [⟨"Jane", "A", "Doe"⟩], PyObj.cdf [⟨"Doe", "Jane A"⟩],
         PyObj.fdf ⟨[("Gross Pay", [Cell.str "$10"])]⟩] 0).1.read
        (prepare_template_namesS
          [PyObj.tdf [⟨"Jane", "A", "Doe"⟩], PyObj.cdf [⟨"Doe", "Jane A"⟩],
           PyObj.fdf ⟨[("Gross Pay", [Cell.str "$10"])]⟩] 0).2 =
        some (PyObj.tpdf (prepare_template_names [⟨"Jane", "A", "Doe"⟩]))) ∧
     ((prepare_csv_namesS
        [PyObj.tdf [⟨"Jane", "A", "Doe"⟩], PyObj.cdf [⟨"Doe", "Jane A"⟩],
         PyObj.fdf ⟨[("Gross Pay", [Cell.str "$10"])]⟩] 1).1.read 1 =
        some (PyObj.cdf [⟨"Doe", "Jane A"⟩]) ∧
      (prepare_csv_namesS
        [PyObj.tdf [⟨"Jane", "A", "Doe"⟩], PyObj.cdf [⟨"Doe", "Jane A"⟩],
         PyObj.fdf ⟨[("Gross Pay", [Cell.str "$10"])]⟩] 1).1.read
        (prepare_csv_namesS
          [PyObj.tdf [⟨"Jane", "A", "Doe"⟩], PyObj.cdf [⟨"Doe", "Jane A"⟩],
           PyObj.fdf ⟨[("Gross Pay", [Cell.str "$10"])]⟩] 1).2 =
        some (PyObj.cpdf (prepare_csv_names [⟨"Doe", "Jane A"⟩]))) ∧
     ((match_template_to_csvS
        [PyObj.tdf [⟨"Jane", "A", "Doe"⟩], PyObj.cdf [⟨"Doe", "Jane A"⟩],
         PyObj.fdf ⟨[("Gross Pay", [Cell.str "$10"])]⟩] 0 1).1.read 0 =
        some (PyObj.tdf [⟨"Jane", "A", "Doe"⟩]) ∧
      (match_template_to_csvS
        [PyObj.tdf [⟨"Jane", "A", "Doe"⟩], PyObj.cdf [⟨"Doe", "Jane A"⟩],
         PyObj.fdf ⟨[("Gross Pay", [Cell.str "$10"])]⟩] 0 1).1.read 1 =
        some (PyObj.cdf [⟨"Doe", "Jane A"⟩]) ∧
      (match_template_to_csvS
        [PyObj.tdf [⟨"Jane", "A", "Doe"⟩], PyObj.cdf [⟨"Doe", "Jane A"⟩],
         PyObj.fdf ⟨[("Gross Pay", [Cell.str "$10"])]⟩] 0 1).1.read
        (match_template_to_csvS
          [PyObj.tdf [⟨"Jane", "A", "Doe"⟩], PyObj.cdf [⟨"Doe", "Jane A"⟩],
           PyObj.fdf ⟨[("Gross Pay", [Cell.str "$10"])]⟩] 0 1).2 =
        some (PyObj.mdf (match_template_to_csv [⟨"Jane", "A", "Doe"⟩]
          [⟨"Doe", "Jane A"⟩]))) ∧
     ((apply_field_mappingS
        [PyObj.tdf [⟨"Jane", "A", "Doe"⟩], PyObj.cdf [⟨"Doe", "Jane A"⟩],
         PyObj.fdf ⟨[("Gross Pay", [Cell.str "$10"])]⟩] 2).1.read 2 =
        some (PyObj.fdf ⟨[("Gross Pay", [Cell.str "$10"])]⟩) ∧
      (apply_field_mappingS
        [PyObj.tdf [⟨"Jane", "A", "Doe"⟩], PyObj.cdf [⟨"Doe", "Jane A"⟩],
         PyObj.fdf ⟨[("Gross Pay", [Cell.str "$10"])]⟩] 2).1.read
        (apply_field_mappingS
          [PyObj.tdf [⟨"Jane", "A", "Doe"⟩], PyObj.cdf [⟨"Doe", "Jane A"⟩],
           PyObj.fdf ⟨[("Gross Pay", [Cell.str "$10"])]⟩] 2).2 =
        some (PyObj.fdf (apply_field_mapping
          ⟨[("Gross Pay", [Cell.str "$10"])]⟩)))) :=
  c10_no_mutation
    [PyObj.tdf [⟨"Jane", "A", "Doe"⟩], PyObj.cdf [⟨"Doe", "Jane A"⟩],
     PyObj.fdf ⟨[("Gross Pay", [Cell.str "$10"])]⟩]
    0 1 2 [⟨"Jane", "A", "Doe"⟩] [⟨"Doe", "Jane A"⟩]
    ⟨[("Gross Pay", [Cell.str "$10"])]⟩ rfl rfl rfl

end PayrollFill
